import Mathlib

/-!
Shallow embedding of the game-session coordinator of the stand-backend
repository: the player-slot reservation and allocation flow
(`stand_prod_game_fn_assign/lambda_function.py`), the raffle draw engine
(`stand_prod_game_fn_raffle/lambda_function.py`), the quiz progression
engine (`stand_prod_game_fn_quiz/lambda_function.py`) and the EMPAREJA2
validator (`stand_prod_game_validate`).  The two DynamoDB tables are
modelled as lists of records; every `update_item` expression of the
source that touches the player table is embedded as a `PlayerWrite`
operation, and each lambda handler as a function from `Store` to
`Store` plus a structured result.
-/

namespace Stand

/-- Association-list lookup for DynamoDB map attributes (first matching key). -/
def mapGet {β : Type} : List (String × β) → String → Option β
  | [], _ => none
  | (k, v) :: rest, key => if k = key then some v else mapGet rest key

/-- Association-list update for DynamoDB map attributes: replaces the first
binding of the key, or appends a new binding. -/
def mapSet {β : Type} : List (String × β) → String → β → List (String × β)
  | [], key, v => [(key, v)]
  | (k, w) :: rest, key, v =>
    if k = key then (key, v) :: rest else (k, w) :: mapSet rest key v

/-! ### Kernel-reducible models of the Python string primitives

The builtin `String.toUpper`, `String.trim`, `String.splitOn`,
`String.startsWith` and `String.toInt?` do not reduce inside the kernel, so
the handful of string operations the handlers rely on are modelled over the
underlying character list. -/

/-- `str.upper()`. -/
def strUpper (s : String) : String := ⟨s.data.map Char.toUpper⟩

/-- `str.strip()`. -/
def strTrim (s : String) : String :=
  ⟨((s.data.dropWhile Char.isWhitespace).reverse.dropWhile Char.isWhitespace).reverse⟩

/-- `str.split(sep)` for a one-character separator. -/
def splitOnChar (sep : Char) : List Char → List (List Char)
  | [] => [[]]
  | c :: rest =>
    let r := splitOnChar sep rest
    if c = sep then [] :: r
    else
      match r with
      | [] => [[c]]
      | h :: t => (c :: h) :: t

/-- `payload.split("_")`. -/
def strSplitUnderscore (s : String) : List String :=
  (splitOnChar '_' s.data).map (fun l => ⟨l⟩)

/-- `payload.startswith("QR_")`. -/
def strStartsWithQR (s : String) : Bool :=
  decide (s.data.take 3 = ['Q', 'R', '_'])

/-- Decimal digit run of Python `int(...)`, `none` on any non-digit. -/
def digitsToNat? : List Char → Option Nat
  | [] => none
  | cs => cs.foldl (fun acc c =>
      match acc with
      | none => none
      | some n => if c.isDigit then some (n * 10 + (c.toNat - 48)) else none) (some 0)

/-- Python `int(str)` on an already-stripped string: optional sign followed
by decimal digits. -/
def strToIntQ (s : String) : Option Int :=
  match s.data with
  | [] => none
  | c :: rest =>
    if c = '-' then (digitsToNat? rest).map (fun n => -(n : Int))
    else if c = '+' then (digitsToNat? rest).map (fun n => (n : Int))
    else (digitsToNat? (c :: rest)).map (fun n => (n : Int))

/-- Per-game-type nested onboarding state written by the SEMAFORO assigner. -/
structure OnboardingState where
  stepIndex : Int
  completed : Bool
deriving DecidableEq

/-- The `type.<GAMETYPE>` nested map of a player record.  Every field is
optional because DynamoDB maps are schemaless; `none` means the attribute is
absent.  `quizCurrentQuestion`, `lastSpin` and `color` can also be present
with the DynamoDB NULL value, hence `Option (Option _)`. -/
structure TypeBlob where
  raffleEligible : Option Bool := none
  raffleWin : Option Bool := none
  raffleWinAt : Option String := none
  quizRequired : Option Bool := none
  quizCompleted : Option Bool := none
  quizCurrentQuestion : Option (Option String) := none
  quizAnswers : Option (List (String × String)) := none
  quizUpdatedAt : Option String := none
  pairId : Option String := none
  characterId : Option Int := none
  characterName : Option String := none
  partnerName : Option String := none
  score : Option Int := none
  timer : Option String := none
  scoreUpdatedAt : Option String := none
  lastSpin : Option (Option String) := none
  spinUsed : Option Bool := none
  color : Option (Option String) := none
  onboarding : Option OnboardingState := none
deriving DecidableEq

/-- A record of the gameplayer table, keyed by `(gameId, playerId)`. -/
structure Player where
  gameId : String
  playerId : Int
  instagramPSID : Option String := none
  instagramUsername : Option String := none
  joinedAt : Option String := none
  validated : Option Bool := none
  validatedAt : Option String := none
  validationCode : Option Int := none
  eligibleForGameId : Option String := none
  type : Option (List (String × TypeBlob)) := none
deriving DecidableEq

/-- One quick-reply option of a configured quiz question. -/
structure QuizOption where
  title : String
  payload : String
deriving DecidableEq

/-- One configured quiz question stored under `quizQuestions` on the game. -/
structure QuizQuestion where
  text : String
  options : List QuizOption
deriving DecidableEq

/-- A row persisted to `raffleWinners` on the game record. -/
structure WinnerRow where
  playerId : Int
  instagramUsername : Option String
  instagramPSID : Option String
  wonAt : String
  validationCode : Option Int
deriving DecidableEq

/-- A record of the games table, keyed by `gameId`. -/
structure GameRec where
  gameId : String
  gameType : Option String := none
  isActive : Option Bool := none
  maxPlayers : Option Int := none
  playersCount : Option Int := none
  validatedCount : Option Int := none
  lastJoinAt : Option String := none
  lastValidatedAt : Option String := none
  updatedAt : Option String := none
  quizOrder : List String := []
  quizQuestions : List (String × QuizQuestion) := []
  raffleWinners : Option (List WinnerRow) := none
  raffleLastRunAt : Option String := none
  raffleOnlyValidated : Option Bool := none
deriving DecidableEq

/-- The backing store: the games table and the gameplayer table. -/
structure Store where
  games : List GameRec
  players : List Player
deriving DecidableEq

/-- `games_table.get_item(Key=gameId)`. -/
def getGame (s : Store) (gid : String) : Option GameRec :=
  s.games.find? (fun g => g.gameId = gid)

/-- `games_table.update_item(Key=gameId, ...)`: applies `f` to the record
with the given key. -/
def updGame (s : Store) (gid : String) (f : GameRec → GameRec) : Store :=
  { s with games := s.games.map (fun g => if g.gameId = gid then f g else g) }

/-- `type.<gk>` of a player item, `none` when the path does not exist. -/
def blobOf (p : Player) (gk : String) : Option TypeBlob :=
  p.type.bind (fun t => mapGet t gk)

/-- Replace the `type.<gk>` blob of a player whose `type` map is present. -/
def setBlob (p : Player) (gk : String) (b : TypeBlob) : Player :=
  { p with type := some (mapSet (p.type.getD []) gk b) }

/-! ### Player-table update expressions

Every `update_item` of the repository that targets the gameplayer table is
one of the following operations; `applyPlayerWrite` is its effect on the
addressed item.  A path-based `SET` whose document path does not exist
raises a `ValidationException` in DynamoDB and leaves the item unchanged,
which is modelled by returning the item unmodified. -/

inductive PlayerWrite where
  /-- `SET #type = if_not_exists(#type, :tinit)` (raffle `_mark_winner` step 1,
  quiz `_prepare_quiz_for_existing_players` step 1, t1mer `_ensure_type_maps`). -/
  | ensureTypeW
  /-- `SET #type.#g = if_not_exists(#type.#g, :ginit)`. -/
  | ensureTypeKeyW (gk : String)
  /-- `SET #type.#g.raffleEligible = :f, #type.#g.raffleWin = :t,
  #type.#g.raffleWinAt = :ts REMOVE eligibleForGameId`
  (raffle `_mark_winner` step 3). -/
  | markWinnerFlagsW (gk ts : String)
  /-- quiz `_prepare_quiz_for_existing_players` step 3: sets quizRequired,
  quizCompleted, quizCurrentQuestion, `if_not_exists` quizAnswers,
  quizUpdatedAt. -/
  | prepQuizDefaultsW (gk now : String)
  /-- quiz `_set_quiz_state`. -/
  | setQuizStateW (gk : String) (nextQ : Option String) (completed : Bool) (now : String)
  /-- quiz `_save_quiz_answer`. -/
  | saveQuizAnswerW (gk qid aid now : String)
  /-- validate `set_validated` (conditional on `validated` absent or false). -/
  | setValidatedW (now : String)
  /-- t1mer `store_score` step 3. -/
  | storeScoreW (gk timer : String) (score : Int) (now : String)
deriving DecidableEq

def applyPlayerWrite : PlayerWrite → Player → Player
  | .ensureTypeW, p => { p with type := some (p.type.getD []) }
  | .ensureTypeKeyW gk, p =>
    match p.type with
    | none => p
    | some t =>
      match mapGet t gk with
      | none => { p with type := some (mapSet t gk {}) }
      | some _ => p
  | .markWinnerFlagsW gk ts, p =>
    match blobOf p gk with
    | none => p
    | some b =>
      { setBlob p gk
          { b with raffleEligible := some false, raffleWin := some true,
                   raffleWinAt := some ts } with
        eligibleForGameId := none }
  | .prepQuizDefaultsW gk now, p =>
    match blobOf p gk with
    | none => p
    | some b =>
      setBlob p gk
        { b with quizRequired := some true, quizCompleted := some false,
                 quizCurrentQuestion := some none,
                 quizAnswers := some (b.quizAnswers.getD []),
                 quizUpdatedAt := some now }
  | .setQuizStateW gk nextQ completed now, p =>
    match blobOf p gk with
    | none => p
    | some b =>
      setBlob p gk
        { b with quizCurrentQuestion := some nextQ,
                 quizCompleted := some completed,
                 quizUpdatedAt := some now }
  | .saveQuizAnswerW gk qid aid now, p =>
    match blobOf p gk with
    | none => p
    | some b =>
      match b.quizAnswers with
      | none => p
      | some qa =>
        setBlob p gk
          { b with quizAnswers := some (mapSet qa qid aid),
                   quizUpdatedAt := some now }
  | .setValidatedW now, p =>
    if p.validated.getD false then p
    else { p with validated := some true, validatedAt := some now }
  | .storeScoreW gk timer score now, p =>
    match blobOf p gk with
    | none => p
    | some b =>
      setBlob p gk
        { b with timer := some timer, score := some score,
                 scoreUpdatedAt := some now }

/-! ### The assigner registry (`stand_prod_game_fn_assign/assigners`) -/

/-- The random catalog character picked by the EMPAREJA2 assigner. -/
structure CatalogChoice where
  characterId : Int
  characterName : String
  pairId : String
  partnerName : String
deriving DecidableEq

/-- `assigners/generic.py`: the common field set written for unregistered
game types. -/
def genericTypeBlob : TypeBlob :=
  { raffleEligible := some true, quizRequired := some false,
    quizCompleted := some false, quizCurrentQuestion := some none,
    quizAnswers := some [] }

/-- The `type.<GAMETYPE>` blob of the patch returned by the assigner
registered for `gameType` (`ASSIGNERS.get(game_type, assign_generic)`).
Every assigner returns a patch containing only the `type` key. -/
def assignerTypeBlob (gameType : String) (pick : CatalogChoice) : TypeBlob :=
  if gameType = "EMPAREJA2" then
    { characterId := some pick.characterId,
      characterName := some pick.characterName,
      pairId := some pick.pairId,
      partnerName := some pick.partnerName,
      raffleEligible := some true,
      quizAnswers := some [] }
  else if gameType = "T1MER" then
    { score := some 0, quizAnswers := some [] }
  else if gameType = "RULET4" then
    { lastSpin := some none, spinUsed := some false, quizAnswers := some [] }
  else if gameType = "SEMAFORO" then
    { onboarding := some ⟨0, false⟩, color := some none, quizAnswers := some [] }
  else genericTypeBlob

/-- The `base_item` built by the assign handler, with the assigner patch
merged in before the write (`lambda_function.py` lines 341-372). -/
def mkJoinItem (gid : String) (pid : Int) (psid username now : String)
    (code : Int) (gameType : String) (pick : CatalogChoice) : Player :=
  { gameId := gid, playerId := pid,
    instagramPSID := some psid,
    instagramUsername := some username,
    joinedAt := some now,
    validated := some false,
    validationCode := some code,
    type := some [(gameType, assignerTypeBlob gameType pick)] }

/-- A write against the gameplayer table: either an `update_item` addressed
at a key, or the conditional `put_item` of a freshly joined player. -/
inductive StoreStep where
  | upd (gid : String) (pid : Int) (w : PlayerWrite)
  | createJoin (gid : String) (pid : Int) (psid username now : String)
      (code : Int) (gameType : String) (pick : CatalogChoice)
deriving DecidableEq

/-- Effect of a `StoreStep` on the gameplayer table.  `update_item` on an
existing key edits that item; on a missing key DynamoDB upserts a new item
consisting of the key plus the effect of the update expression, unless the
expression fails validation (in which case no item is created). -/
def applyStoreStep : StoreStep → List Player → List Player
  | .upd gid pid w, l =>
    if l.any (fun p => decide (p.gameId = gid ∧ p.playerId = pid)) then
      l.map (fun p => if p.gameId = gid ∧ p.playerId = pid then applyPlayerWrite w p else p)
    else
      let blank : Player := { gameId := gid, playerId := pid }
      let r := applyPlayerWrite w blank
      if r = blank then l else l ++ [r]
  | .createJoin gid pid psid username now code gameType pick, l =>
    l ++ [mkJoinItem gid pid psid username now code gameType pick]

/-- `gp_table.update_item` addressed at `(gid, pid)`, at store level. -/
def updPlayer (s : Store) (gid : String) (pid : Int) (w : PlayerWrite) : Store :=
  { s with players := applyStoreStep (.upd gid pid w) s.players }

/-! ### The join flow (`stand_prod_game_fn_assign/lambda_function.py`) -/

/-- Outcome of one `_put_player` attempt as seen by this invocation:
`raceFail` stands for a `ConditionalCheckFailedException` caused by a
concurrent joiner, `otherFail` for any other `ClientError`. -/
inductive PutOutcome where
  | success
  | raceFail
  | otherFail
deriving DecidableEq

inductive JoinRes where
  | missingParams
  | missingUsername
  | gameNotFound
  | gameInactive
  | okExisting (p : Player)
  | okNew (p : Player)
  | limitReached
  | putFailed
  | raceExhausted
deriving DecidableEq

/-- `meta.get("maxPlayers") or 9999` followed by `int(...)`. -/
def effectiveMaxPlayers (g : GameRec) : Int :=
  match g.maxPlayers with
  | none => 9999
  | some m => if m = 0 then 9999 else m

/-- `_ensure_game_counters`: `SET playersCount = if_not_exists(playersCount, 0),
validatedCount = if_not_exists(validatedCount, 0)`. -/
def ensureCounters (g : GameRec) : GameRec :=
  { g with playersCount := some (g.playersCount.getD 0),
           validatedCount := some (g.validatedCount.getD 0) }

/-- The condition of `_reserve_player_slot`:
`attribute_not_exists(playersCount) OR playersCount < :max`. -/
def reserveCond (g : GameRec) (maxPlayers : Int) : Bool :=
  match g.playersCount with
  | none => true
  | some c => decide (c < maxPlayers)

/-- The update of `_reserve_player_slot` when its condition holds:
`ADD playersCount :one SET lastJoinAt = :now, updatedAt = :now`. -/
def applyReserve (now : String) (g : GameRec) : GameRec :=
  { g with playersCount := some (g.playersCount.getD 0 + 1),
           lastJoinAt := some now, updatedAt := some now }

/-- `_rollback_player_slot`: `ADD playersCount :neg SET updatedAt = :now`. -/
def applyRollback (now : String) (g : GameRec) : GameRec :=
  { g with playersCount := some (g.playersCount.getD 0 - 1),
           updatedAt := some now }

/-- `_get_last_player_id`: highest `playerId` in the game partition
(descending sort-key query, limit 1), `0` when the partition is empty. -/
def lastPlayerId (s : Store) (gid : String) : Int :=
  s.players.foldr (fun p acc => if p.gameId = gid then max p.playerId acc else acc) 0

/-- `_find_existing_player_by_psid`: GSI lookup keyed by
`(instagramPSID, gameId)`. -/
def findExistingByPsid (s : Store) (gid psid : String) : Option Player :=
  s.players.find? (fun p => p.instagramPSID = some psid ∧ p.gameId = gid)

/-- The allocation loop (`for _ in range(attempts)`): read the highest id,
attempt a conditional create, retry on a playerId race, roll back the slot
reservation on any other failure or when the attempts are exhausted. -/
def allocLoop (gid psid username : String) (code : Int) (now gameType : String)
    (pick : CatalogChoice) : Nat → List PutOutcome → Store → JoinRes × Store
  | 0, _, s => (.raceExhausted, updGame s gid (applyRollback now))
  | n + 1, faults, s =>
    let newPid := lastPlayerId s gid + 1
    let item := mkJoinItem gid newPid psid username now code gameType pick
    let raced := s.players.any (fun p => decide (p.gameId = gid ∧ p.playerId = newPid))
    match if raced then PutOutcome.raceFail else faults.headD .success with
    | .success => (.okNew item, { s with players := s.players ++ [item] })
    | .raceFail => allocLoop gid psid username code now gameType pick n faults.tail s
    | .otherFail => (.putFailed, updGame s gid (applyRollback now))

/-- The assign `lambda_handler`: idempotency lookup, capacity-guarded slot
reservation, then id allocation with bounded retry (6 attempts). -/
def joinHandler (gid psid username : String) (code : Int) (now : String)
    (pick : CatalogChoice) (faults : List PutOutcome) (s : Store) : JoinRes × Store :=
  if psid = "" ∨ gid = "" then (.missingParams, s)
  else if username = "" then (.missingUsername, s)
  else
    match getGame s gid with
    | none => (.gameNotFound, s)
    | some meta =>
      if meta.isActive.getD true = false then (.gameInactive, s)
      else
        let gameType := strUpper (meta.gameType.getD "UNKNOWN")
        match findExistingByPsid s gid psid with
        | some p => (.okExisting p, s)
        | none =>
          let g1 := ensureCounters meta
          let s1 := updGame s gid ensureCounters
          if reserveCond g1 (effectiveMaxPlayers meta) then
            allocLoop gid psid username code now gameType pick 6 faults
              (updGame s1 gid (applyReserve now))
          else
            (.limitReached, s1)

/-- One join request of a sequence (its oracle of put outcomes included). -/
structure JoinReq where
  psid : String
  username : String
  code : Int
  now : String
  pick : CatalogChoice
  faults : List PutOutcome
deriving DecidableEq

/-- A sequence of join invocations against the same game. -/
def joinMany (gid : String) : List JoinReq → Store → List JoinRes × Store
  | [], s => ([], s)
  | r :: rs, s =>
    let step := joinHandler gid r.psid r.username r.code r.now r.pick r.faults s
    let rest := joinMany gid rs step.2
    (step.1 :: rest.1, rest.2)

/-- The `playersCount` attribute of a game, with an absent counter read as 0
(the way `ADD` and the reservation guard treat it). -/
def pcVal (s : Store) (gid : String) : Int :=
  ((getGame s gid).bind GameRec.playersCount).getD 0

/-! ### The raffle draw engine (`stand_prod_game_fn_raffle/lambda_function.py`) -/

/-- `random.sample` modelled with an oracle of indices: each pick selects a
position among the remaining candidates, and the chosen element is removed
before the next pick (sampling without replacement). -/
def sampleWR {α : Type} : List α → List Nat → List α
  | _, [] => []
  | l, i :: rest =>
    if h : i < l.length then l.get ⟨i, h⟩ :: sampleWR (l.eraseIdx i) rest else []

/-- Validity of a pick oracle: every pick addresses a remaining candidate. -/
def validPicks {α : Type} : List α → List Nat → Bool
  | _, [] => true
  | l, i :: rest => decide (i < l.length) && validPicks (l.eraseIdx i) rest

/-- `_has_psid`: `psid and psid != "#"`. -/
def hasPsid (p : Player) : Bool :=
  match p.instagramPSID with
  | none => false
  | some v => decide (v ≠ "" ∧ v ≠ "#")

/-- `_is_validated`: `bool(it.get("validated", False))`. -/
def isValidatedP (p : Player) : Bool := p.validated.getD false

/-- `_query_eligible_players`, primary path: the sparse GSI keyed by
`eligibleForGameId = gid` followed by a batch get of the full items. -/
def eligibleItems (s : Store) (gid : String) : List Player :=
  s.players.filter (fun p => p.eligibleForGameId = some gid)

/-- The candidate filter of the draw handler (lines 358-371): positive
playerId, deliverable identity and, when `onlyValidated`, already
validated. -/
def raffleCandidates (s : Store) (gid : String) (onlyValidated : Bool) : List Player :=
  (eligibleItems s gid).filter
    (fun p => decide (0 < p.playerId) && hasPsid p && (!onlyValidated || isValidatedP p))

/-- `_save_raffle_winners_to_game`. -/
def saveRaffleWinners (s : Store) (gid : String) (winners : List Player)
    (onlyValidated : Bool) (winTs : String) : Store :=
  updGame s gid (fun g =>
    { g with
      raffleWinners := some (winners.map (fun w =>
        ⟨w.playerId, w.instagramUsername, w.instagramPSID, winTs, w.validationCode⟩)),
      raffleLastRunAt := some winTs,
      raffleOnlyValidated := some onlyValidated })

/-- `_mark_winner`: the three sequential updates against key `(gid, pid)` —
ensure `type`, ensure `type.<gk>`, then set the raffle flags and `REMOVE
eligibleForGameId`. -/
def markWinner (s : Store) (gid : String) (pid : Int) (gk winTs : String) : Store :=
  updPlayer (updPlayer (updPlayer s gid pid .ensureTypeW) gid pid (.ensureTypeKeyW gk))
    gid pid (.markWinnerFlagsW gk winTs)

inductive DrawRes where
  | missingGameId
  | invalidNumberOfWinners
  | gameNotFound
  | gameInactive
  | missingGameType
  | noCandidates
  | drawn (winners : List Player)
deriving DecidableEq

/-- The raffle `lambda_handler` (direct-invoke path): validate the request,
filter candidates through the sparse eligibility index, sample
`min(numberOfWinners, |candidates|)` winners and mark each one. -/
def drawHandler (gid : String) (nWinners : Option Int) (onlyValidated : Bool)
    (picks : List Nat) (winTs : String) (s : Store) : DrawRes × Store :=
  if gid = "" then (.missingGameId, s)
  else
    match nWinners with
    | none => (.invalidNumberOfWinners, s)
    | some w =>
      if w ≤ 0 then (.invalidNumberOfWinners, s)
      else
        match getGame s gid with
        | none => (.gameNotFound, s)
        | some game =>
          if game.isActive.getD true = false then (.gameInactive, s)
          else if strUpper (game.gameType.getD "") = "" then (.missingGameType, s)
          else
            let gameType := strUpper (game.gameType.getD "")
            let candidates := raffleCandidates s gid onlyValidated
            if candidates = [] then (.noCandidates, s)
            else
              let k := min w.toNat candidates.length
              let winners := sampleWR candidates (picks.take k)
              let s1 := saveRaffleWinners s gid winners onlyValidated winTs
              let s2 := winners.foldl
                (fun acc wp => markWinner acc gid wp.playerId gameType winTs) s1
              (.drawn winners, s2)

/-- The request of one raffle draw, its sampling oracle included. -/
structure DrawSpec where
  nWinners : Option Int
  onlyValidated : Bool
  picks : List Nat
  winTs : String
deriving DecidableEq

/-- The observable trace of one draw: the player ids of the candidate set it
consulted and of the winners it selected. -/
structure DrawRecord where
  candPids : List Int
  winPids : List Int
deriving DecidableEq

def drawRecordOf (gid : String) (spec : DrawSpec) (s : Store) : DrawRecord :=
  match (drawHandler gid spec.nWinners spec.onlyValidated spec.picks spec.winTs s).1 with
  | .drawn winners =>
    ⟨(raffleCandidates s gid spec.onlyValidated).map Player.playerId,
     winners.map Player.playerId⟩
  | .noCandidates =>
    ⟨(raffleCandidates s gid spec.onlyValidated).map Player.playerId, []⟩
  | _ => ⟨[], []⟩

/-- A sequence of raffle draws against the same game, with their traces. -/
def runDraws (gid : String) : List DrawSpec → Store → List DrawRecord × Store
  | [], s => ([], s)
  | d :: ds, s =>
    let record := drawRecordOf gid d s
    let s1 := (drawHandler gid d.nWinners d.onlyValidated d.picks d.winTs s).2
    let rest := runDraws gid ds s1
    (record :: rest.1, rest.2)

/-- A player id holds no live eligibility marker for `gid` anywhere in the
player list. -/
def notEligL (l : List Player) (gid : String) (pid : Int) : Prop :=
  ∀ p ∈ l, p.playerId = pid → p.eligibleForGameId ≠ some gid

/-- Eligibility markers point at the player's own game (the invariant of the
sparse index: `eligibleForGameId` is the id of the game the record belongs
to). -/
def markerConsistentL (l : List Player) (gid : String) : Prop :=
  ∀ p ∈ l, p.eligibleForGameId = some gid → p.gameId = gid

/-! ### The quiz progression engine (`stand_prod_game_fn_quiz/lambda_function.py`) -/

/-- An outbound Instagram message: recipient, text, optional quick replies
(title, payload). -/
structure Msg where
  psid : String
  text : String
  quickReplies : List (String × String) := []
deriving DecidableEq

/-- `_send_dm`: drops messages to an empty or placeholder psid. -/
def sendDm (psid text : String) : List Msg :=
  if psid = "" ∨ psid = "#" then [] else [⟨psid, text, []⟩]

/-- `_build_quiz_question_message`. -/
def buildQuizQuestionMessage (psid questionId : String)
    (questionsCfg : List (String × QuizQuestion)) : Option Msg :=
  let q := (mapGet questionsCfg questionId).getD ⟨"", []⟩
  let text := strTrim q.text
  let quickReplies := q.options.filterMap (fun opt =>
    let title := strTrim opt.title
    let payload := strTrim opt.payload
    if title = "" ∨ payload = "" then none else some (title, payload))
  if quickReplies = [] then
    if text ≠ "" then some ⟨psid, text, []⟩ else none
  else some ⟨psid, text, quickReplies⟩

/-- `gp_table.get_item` by key (used to decide whether a path-based update
against that key succeeds). -/
def getPlayerByKey (s : Store) (gid : String) (pid : Int) : Option Player :=
  s.players.find? (fun p => p.gameId = gid ∧ p.playerId = pid)

/-- Document-path validity of `_set_quiz_state`: `type.<gk>` must exist. -/
def setQuizStatePathOk (p : Player) (gk : String) : Bool :=
  (blobOf p gk).isSome

/-- Document-path validity of `_save_quiz_answer`: `type.<gk>.quizAnswers`
must exist. -/
def saveAnswerPathOk (p : Player) (gk : String) : Bool :=
  match blobOf p gk with
  | some b => b.quizAnswers.isSome
  | none => false

/-- An `update_item` that raises `ClientError` (and leaves the store
unchanged) when its document path does not exist on the keyed item. -/
def updOrFail (s : Store) (gid : String) (pid : Int) (w : PlayerWrite)
    (ok : Player → Bool) : Option Store :=
  match getPlayerByKey s gid pid with
  | none => none
  | some q => if ok q then some (updPlayer s gid pid w) else none

/-- `_next_question_id`. -/
def nextQuestionId (currentQid : String) (quizOrder : List String) : Option String :=
  if quizOrder = [] then none
  else if currentQid ∉ quizOrder then quizOrder.head?
  else quizOrder.get? (quizOrder.indexOf currentQid + 1)

/-- `_parse_quiz_payload`: the `{gameId}_{questionId}_{answerId}` convention
with gameId allowed to contain underscores; payloads with the `QR_` control
prefix are passed through in the third component. -/
def parseQuizPayload (payload : String) :
    Option String × Option String × Option String :=
  if payload = "" then (none, none, none)
  else if strStartsWithQR payload then (none, none, some payload)
  else
    match (strSplitUnderscore payload).reverse with
    | answerId :: questionId :: g1 :: grest =>
      let gameId := String.intercalate "_" ((g1 :: grest).reverse)
      if gameId = "" ∨ questionId = "" ∨ answerId = "" then (none, none, none)
      else (some gameId, some questionId, some answerId)
    | _ => (none, none, none)

def quizClosedMsgText : String := "Cuestionario cerrado. Gracias igualmente 🙌"

def quizCodeMsgText (code : Int) : String :=
  "🎟️ Tu código para jugar es: " ++ toString code ++
    "\n\nVe a la pantalla, introdúcelo y ¡a jugar! 🚀"

def quizProblemMsgText : String :=
  "He tenido un problema generando tu código. Escribe \x27AYUDA\x27 y te lo soluciono."

def quizIntroText : String := "Antes de jugar, tienes que responder unas preguntas...\n"

inductive QuizAnswerRes where
  | missingInput
  | closedQr
  | invalidPayload
  | gameNotFoundQ
  | missingGameTypeQ
  | noQuizConfigQ
  | playerNotFoundQ
  | dynamoErrorQ
  | completedQ (gid : String) (pid : Int)
  | nextQuestionQ (nextQid gid : String) (pid : Int)
deriving DecidableEq

/-- The `quiz_answer` branch of the quiz `lambda_handler`: decode the
payload, record the answer under `quizAnswers[questionId]`, then either
advance `quizCurrentQuestion` to the next entry of `quizOrder` and emit that
question, or mark the quiz completed and emit the validation code. -/
def quizAnswer (psid rawPayload now : String) (s : Store) :
    QuizAnswerRes × Store × List Msg :=
  let quizPayload := strTrim rawPayload
  if psid = "" ∨ quizPayload = "" then (.missingInput, s, [])
  else
    let parsed := parseQuizPayload quizPayload
    let qrControl : Bool :=
      match parsed.2.2 with
      | some a => decide (a ≠ "") && strStartsWithQR a
      | none => false
    if parsed.1 = none ∧ parsed.2.1 = none ∧ qrControl then
      (.closedQr, s, sendDm psid quizClosedMsgText)
    else
      match parsed with
      | (some gameId, some questionId, some answerId) =>
        match getGame s gameId with
        | none => (.gameNotFoundQ, s, [])
        | some meta =>
          let gameType := strUpper (meta.gameType.getD "")
          if gameType = "" ∨ gameType = "UNKNOWN" then (.missingGameTypeQ, s, [])
          else if meta.quizOrder = [] then (.noQuizConfigQ, s, [])
          else
            match findExistingByPsid s gameId psid with
            | none => (.playerNotFoundQ, s, [])
            | some player =>
              match updOrFail s gameId player.playerId
                  (.saveQuizAnswerW gameType questionId answerId now)
                  (fun q => saveAnswerPathOk q gameType) with
              | none => (.dynamoErrorQ, s, [])
              | some s1 =>
                match nextQuestionId questionId meta.quizOrder with
                | none =>
                  match updOrFail s1 gameId player.playerId
                      (.setQuizStateW gameType none true now)
                      (fun q => setQuizStatePathOk q gameType) with
                  | none => (.dynamoErrorQ, s1, [])
                  | some s2 =>
                    let msgs :=
                      match player.validationCode with
                      | some c =>
                        if c ≠ 0 then sendDm psid (quizCodeMsgText c)
                        else sendDm psid quizProblemMsgText
                      | none => sendDm psid quizProblemMsgText
                    (.completedQ gameId player.playerId, s2, msgs)
                | some nextQid =>
                  match updOrFail s1 gameId player.playerId
                      (.setQuizStateW gameType (some nextQid) false now)
                      (fun q => setQuizStatePathOk q gameType) with
                  | none => (.dynamoErrorQ, s1, [])
                  | some s2 =>
                    let msgs :=
                      match buildQuizQuestionMessage psid nextQid meta.quizQuestions with
                      | none => []
                      | some m => [m]
                    (.nextQuestionQ nextQid gameId player.playerId, s2, msgs)
      | _ => (.invalidPayload, s, [])

inductive StartOutcome where
  | started (psid : String) (pid : Int) (firstQuestion : String)
  | playerNotFoundS (psid : String)
deriving DecidableEq

inductive QuizStartRes where
  | missingInputS
  | gameNotFoundS
  | noQuizConfigS
  | dynamoErrorS
  | okS (results : List StartOutcome)
deriving DecidableEq

/-- The per-psid loop of `quiz_start`: resolve the player, send the intro
plus the first question as one ordered batch, set the quiz state.  A
`ClientError` from the state write aborts the whole handler. -/
def quizStartLoop (gid gameType firstQid now : String)
    (quizQuestions : List (String × QuizQuestion)) :
    List String → Store → List Msg → List StartOutcome →
      QuizStartRes × Store × List Msg
  | [], s, msgs, results => (.okS results, s, msgs)
  | psid :: rest, s, msgs, results =>
    match findExistingByPsid s gid psid with
    | none =>
      quizStartLoop gid gameType firstQid now quizQuestions rest s
        (msgs ++ sendDm psid
          "No he encontrado tu participación en la partida. ¿Has usado el código correcto?")
        (results ++ [.playerNotFoundS psid])
    | some player =>
      let batch := ⟨psid, quizIntroText, []⟩ ::
        (match buildQuizQuestionMessage psid firstQid quizQuestions with
         | none => []
         | some m => [m])
      let msgs1 := msgs ++ batch
      match updOrFail s gid player.playerId
          (.setQuizStateW gameType (some firstQid) false now)
          (fun q => setQuizStatePathOk q gameType) with
      | none => (.dynamoErrorS, s, msgs1)
      | some s1 =>
        quizStartLoop gid gameType firstQid now quizQuestions rest s1 msgs1
          (results ++ [.started psid player.playerId firstQid])

/-- The `quiz_start` branch of the quiz `lambda_handler`. -/
def quizStart (rawGid : String) (rawPsids : List String) (now : String) (s : Store) :
    QuizStartRes × Store × List Msg :=
  let gid := strTrim rawGid
  let psids := (rawPsids.map strTrim).filter (fun p => p ≠ "")
  if gid = "" ∨ psids = [] then (.missingInputS, s, [])
  else
    match getGame s gid with
    | none =>
      (.gameNotFoundS, s, psids.flatMap (fun p => sendDm p "Esa partida no existe. 🙈"))
    | some meta =>
      if meta.quizOrder = [] then (.noQuizConfigS, s, [])
      else
        quizStartLoop gid (strUpper (meta.gameType.getD "")) (meta.quizOrder.headD "")
          now meta.quizQuestions psids s [] []

/-- One question of a POST configure request body. -/
structure QIn where
  id : String
  text : String
  options : List QuizOption
deriving DecidableEq

/-- The normalisation loop of `_save_quiz_meta`: skip questions with a blank
id or text, drop options with a blank title or payload. -/
def normalizeQuestions (questions : List QIn) :
    List String × List (String × QuizQuestion) :=
  questions.foldl (fun acc q =>
    let qid := strTrim q.id
    let qtext := strTrim q.text
    if qid = "" ∨ qtext = "" then acc
    else
      let normOpts := q.options.filterMap (fun o =>
        let title := strTrim o.title
        let payload := strTrim o.payload
        if title = "" ∨ payload = "" then none else some ⟨title, payload⟩)
      (acc.1 ++ [qid], mapSet acc.2 qid ⟨qtext, normOpts⟩)) ([], [])

/-- `_save_quiz_meta`: persists `quizOrder` and `quizQuestions`, raising
(`none`) when no valid question remains. -/
def saveQuizMeta (s : Store) (gid : String) (questions : List QIn) : Option Store :=
  let norm := normalizeQuestions questions
  if norm.1 = [] then none
  else some (updGame s gid (fun g =>
    { g with quizOrder := norm.1, quizQuestions := norm.2 }))

/-- The three per-player updates of `_prepare_quiz_for_existing_players`:
ensure `type`, ensure `type.<gk>`, then write the quiz defaults
(`quizAnswers` guarded by `if_not_exists`). -/
def preparePlayerQuiz (gk now : String) (p : Player) : Player :=
  applyPlayerWrite (.prepQuizDefaultsW gk now)
    (applyPlayerWrite (.ensureTypeKeyW gk) (applyPlayerWrite .ensureTypeW p))

/-- `_prepare_quiz_for_existing_players`: every player of the game partition
with a positive id receives the quiz defaults. -/
def prepareQuizForExistingPlayers (s : Store) (gid gk now : String) : Store :=
  { s with players := s.players.map (fun p =>
      if p.gameId = gid ∧ 0 < p.playerId then preparePlayerQuiz gk now p else p) }

inductive ConfigureRes where
  | missingGameIdC
  | missingQuestionsC
  | gameNotFoundC
  | quizMetaErrorC
  | crashMissingGameType
  | okC
deriving DecidableEq

/-- The POST configure branch of the quiz `lambda_handler`: save the quiz
meta, then initialise quiz fields for the existing players.  A blank game
type makes `_prepare_quiz_for_existing_players` raise out of the handler
(`crashMissingGameType`). -/
def quizConfigure (rawGid : String) (questions : List QIn) (now : String)
    (s : Store) : ConfigureRes × Store :=
  let gid := strTrim rawGid
  if gid = "" then (.missingGameIdC, s)
  else if questions = [] then (.missingQuestionsC, s)
  else
    match getGame s gid with
    | none => (.gameNotFoundC, s)
    | some meta =>
      match saveQuizMeta s gid questions with
      | none => (.quizMetaErrorC, s)
      | some s1 =>
        let gameType := strUpper (meta.gameType.getD "")
        if gameType = "" then (.crashMissingGameType, s1)
        else (.okC, prepareQuizForExistingPlayers s1 gid gameType now)

/-- The stored `quizCurrentQuestion` of a player, read through the keyed
lookup (absent path gives `none`). -/
def currentQuestionOf (s : Store) (gid : String) (pid : Int) (gk : String) :
    Option (Option String) :=
  ((getPlayerByKey s gid pid).bind (fun p => blobOf p gk)).bind
    (fun b => b.quizCurrentQuestion)

/-- The stored `quizCompleted` of a player. -/
def quizCompletedOf (s : Store) (gid : String) (pid : Int) (gk : String) :
    Option Bool :=
  ((getPlayerByKey s gid pid).bind (fun p => blobOf p gk)).bind
    (fun b => b.quizCompleted)

/-- Classifier for admitted-as-new join results. -/
def isOkNew : JoinRes → Bool
  | .okNew _ => true
  | _ => false

/-- Classifier for capacity-rejected join results. -/
def isLimitReached : JoinRes → Bool
  | .limitReached => true
  | _ => false

/-! ### Concrete fixtures used by witness theorems -/

/-- A catalog choice used by witnesses. -/
def pickW : CatalogChoice := ⟨1, "Ana", "PAIR1", "Bruno"⟩

/-- A game with capacity 2 and one admitted player. -/
def gW : GameRec :=
  { gameId := "G1", gameType := some "T1MER", isActive := some true,
    maxPlayers := some 2, playersCount := some 1 }

/-- The already-admitted player of `gW`. -/
def pW : Player :=
  { gameId := "G1", playerId := 1, instagramPSID := some "PSID1",
    instagramUsername := some "@ana", joinedAt := some "t0",
    validated := some false, validationCode := some 1234,
    type := some [("T1MER", assignerTypeBlob "T1MER" pickW)] }

/-- Store with `gW` and its one player. -/
def sW : Store := { games := [gW], players := [pW] }

/-- A fresh game with capacity 2 and an empty partition. -/
def gFreshW : GameRec :=
  { gameId := "G1", gameType := some "T1MER", isActive := some true,
    maxPlayers := some 2, playersCount := some 0 }

/-- Store with the fresh game and no players. -/
def sFreshW : Store := { games := [gFreshW], players := [] }

/-- Three join requests with distinct identities (capacity of `gFreshW` is 2,
so the third must be capacity-rejected). -/
def reqA : JoinReq := ⟨"PSIDA", "@a", 1111, "t1", pickW, []⟩

def reqB : JoinReq := ⟨"PSIDB", "@b", 2222, "t2", pickW, []⟩

def reqC : JoinReq := ⟨"PSIDC", "@c", 3333, "t3", pickW, []⟩

/-- A game used by the raffle witnesses. -/
def gR : GameRec :=
  { gameId := "G1", gameType := some "T1MER", isActive := some true }

/-- Two raffle-eligible players of `gR`. -/
def pR1 : Player :=
  { gameId := "G1", playerId := 1, instagramPSID := some "P1",
    instagramUsername := some "@p1", validated := some true,
    validationCode := some 1111, eligibleForGameId := some "G1" }

def pR2 : Player :=
  { gameId := "G1", playerId := 2, instagramPSID := some "P2",
    instagramUsername := some "@p2", validated := some false,
    validationCode := some 2222, eligibleForGameId := some "G1" }

/-- Store used by the raffle witnesses. -/
def sR : Store := { games := [gR], players := [pR1, pR2] }

/-- A draw request for one winner, picking the first remaining candidate. -/
def specD : DrawSpec := ⟨some 1, false, [0], "t1"⟩

/-- A game with no quiz configured (witness for the quiz-start guard). -/
def gQ9 : GameRec :=
  { gameId := "G9", gameType := some "T1MER", isActive := some true, quizOrder := [] }

def pQ9 : Player :=
  { gameId := "G9", playerId := 1, instagramPSID := some "P9",
    validationCode := some 5555, type := some [("T1MER", genericTypeBlob)] }

def sQ9 : Store := { games := [gQ9], players := [pQ9] }

/-- A game with a three-question quiz and one player (quiz-answer walk). -/
def gQ5 : GameRec :=
  { gameId := "G5", gameType := some "T1MER", isActive := some true,
    quizOrder := ["q1", "q2", "q3"] }

def pQ5 : Player :=
  { gameId := "G5", playerId := 1, instagramPSID := some "P5",
    validationCode := some 4321, type := some [("T1MER", genericTypeBlob)] }

def sQ5 : Store := { games := [gQ5], players := [pQ5] }

/-- A game whose id is the string QR: quiz-answer payloads for it collide
with the `QR_` control prefix. -/
def gQR : GameRec :=
  { gameId := "QR", gameType := some "T1MER", isActive := some true,
    quizOrder := ["Q1", "Q2"] }

def pQR : Player :=
  { gameId := "QR", playerId := 1, instagramPSID := some "P1",
    validationCode := some 1111, type := some [("T1MER", genericTypeBlob)] }

def sQR : Store := { games := [gQR], players := [pQR] }

/-- A player that already has quiz state (completed, at question q2). -/
def blobQ6 : TypeBlob :=
  { quizRequired := some true, quizCompleted := some true,
    quizCurrentQuestion := some (some "q2"), quizAnswers := some [("q1", "a")] }

def pQ6 : Player :=
  { gameId := "G1", playerId := 1, instagramPSID := some "P1",
    validationCode := some 1234, type := some [("T1MER", blobQ6)] }

def gQ6 : GameRec :=
  { gameId := "G1", gameType := some "T1MER", isActive := some true }

def sQ6 : Store := { games := [gQ6], players := [pQ6] }

/-- A one-question configure request. -/
def qsW : List QIn := [⟨"q1", "Pregunta 1", [⟨"Si", "G1_q1_a"⟩]⟩]

/-- The store after saving the quiz meta of `qsW` on `sQ6`. -/
def s1Q6 : Store := (saveQuizMeta sQ6 "G1" qsW).getD sQ6

/-! ### The validate flow (`stand_prod_game_validate`) -/

/-- `to_int_code`: `int(str(code_str).strip())`, `None` when the stripped
text is not an optionally signed decimal numeral. -/
def toIntCode (codeStr : String) : Option Int :=
  strToIntQ (strTrim codeStr)

/-- `query_players_by_code`: query of the `gameId` partition filtered by
`validationCode = code` (order of the partition preserved). -/
def queryPlayersByCode (s : Store) (gid : String) (c : Int) : List Player :=
  s.players.filter (fun p => p.gameId = gid ∧ p.validationCode = some c)

/-- `set_validated`: `SET validated = :v, validatedAt = :t` under the
condition `attribute_not_exists(validated) OR validated = :f`; returns
whether the conditional write was applied. -/
def setValidated (s : Store) (gid : String) (pid : Int) (now : String) :
    Bool × Store :=
  match getPlayerByKey s gid pid with
  | some p =>
    if p.validated.getD false then (false, s)
    else (true, updPlayer s gid pid (.setValidatedW now))
  | none => (true, updPlayer s gid pid (.setValidatedW now))

/-- `inc_validated_count`: `ADD validatedCount :n SET lastValidatedAt = :t,
updatedAt = :t` against the games table (`ADD` treats an absent counter as
zero). -/
def incValidatedCount (s : Store) (gid : String) (n : Int) (now : String) : Store :=
  updGame s gid (fun g =>
    { g with validatedCount := some (g.validatedCount.getD 0 + n),
             lastValidatedAt := some now, updatedAt := some now })

/-- Decimal digit run of a natural number, most significant digit first
(`fuel` bounds the recursion depth; `fuel > n` suffices). -/
def natToDigits : Nat → Nat → List Char
  | 0, _ => []
  | fuel + 1, n =>
    if n < 10 then [Char.ofNat (48 + n)]
    else natToDigits fuel (n / 10) ++ [Char.ofNat (48 + n % 10)]

/-- Python `str` of a natural number. -/
def natToStrQ (n : Nat) : String := ⟨natToDigits (n + 1) n⟩

/-- Python `str` of an integer. -/
def intToStrQ (i : Int) : String :=
  if i < 0 then ⟨Char.ofNat 45 :: natToDigits (i.natAbs + 1) i.natAbs⟩
  else natToStrQ i.natAbs

/-- `str(t.get("characterId"))`: Python renders an absent key as the string
`None`. -/
def charStr : Option Int → String
  | none => "None"
  | some n => intToStrQ n

/-- Value of a digit run (used to invert `natToDigits`). -/
def digitsVal (ds : List Char) : Nat :=
  ds.foldl (fun a c => a * 10 + (c.toNat - 48)) 0

/-- Outcome of `validate_empareja2`, by `reason` (plus the payload of the
`valid` response). -/
inductive E2Res where
  | invalidCodeCount (n : Nat)
  | invalidCodeFormat
  | sameCode
  | codeNotFound (found1 found2 : Bool)
  | alreadyValidated
  | missingPairData
  | sameCharacter
  | differentPair
  | valid (pairId : String) (pid1 pid2 : Int)
deriving DecidableEq

/-- `validate_empareja2`, in source branch order: code count, numeric form,
same code, lookup by code, already validated, pair data, same character
(string compare), pair match; on success both players are conditionally
validated and `validatedCount` is increased by the number of records the
conditional writes actually changed. -/
def validateE2 (s : Store) (gid : String) (codes : List String) (now : String) :
    E2Res × Store :=
  match codes with
  | [code1, code2] =>
    match toIntCode code1, toIntCode code2 with
    | some c1, some c2 =>
      if c1 = c2 then (.sameCode, s)
      else
        match (queryPlayersByCode s gid c1).head?,
              (queryPlayersByCode s gid c2).head? with
        | some p1, some p2 =>
          if p1.validated.getD false || p2.validated.getD false then
            (.alreadyValidated, s)
          else
            let t1 := (blobOf p1 "EMPAREJA2").getD {}
            let t2 := (blobOf p2 "EMPAREJA2").getD {}
            let pair1 := t1.pairId.getD ""
            let pair2 := t2.pairId.getD ""
            if pair1 = "" ∨ pair2 = "" then (.missingPairData, s)
            else if charStr t1.characterId = charStr t2.characterId then
              (.sameCharacter, s)
            else if pair1 ≠ pair2 then (.differentPair, s)
            else
              let r1 := setValidated s gid p1.playerId now
              let r2 := setValidated r1.2 gid p2.playerId now
              let inc : Int := (if r1.1 then 1 else 0) + (if r2.1 then 1 else 0)
              let s3 := if inc ≠ 0 then incValidatedCount r2.2 gid inc now else r2.2
              (.valid pair1 p1.playerId p2.playerId, s3)
        | o1, o2 => (.codeNotFound o1.isSome o2.isSome, s)
    | _, _ => (.invalidCodeFormat, s)
  | cs => (.invalidCodeCount cs.length, s)

/-! Fixtures for the EMPAREJA2 validation claim: a two-player pair with the
same `pairId`, different characters and codes 1111 / 2222. -/

def blobE1 : TypeBlob :=
  { pairId := some "PAIR1", characterId := some 1, characterName := some "Ana" }

def blobE2 : TypeBlob :=
  { pairId := some "PAIR1", characterId := some 2, characterName := some "Bruno" }

def pE1 : Player :=
  { gameId := "GE", playerId := 1, instagramPSID := some "PSE1",
    validationCode := some 1111, type := some [("EMPAREJA2", blobE1)] }

def pE2 : Player :=
  { gameId := "GE", playerId := 2, instagramPSID := some "PSE2",
    validationCode := some 2222, type := some [("EMPAREJA2", blobE2)] }

def gE : GameRec :=
  { gameId := "GE", gameType := some "EMPAREJA2", isActive := some true,
    playersCount := some 2 }

def sE : Store := { games := [gE], players := [pE1, pE2] }

/-- Membership of the sparse raffle-eligibility GSI for a game: the keys of
the player items whose `eligibleForGameId` equals that game. -/
def eligSet (l : List Player) (gid : String) : List (String × Int) :=
  (l.filter (fun p => p.eligibleForGameId = some gid)).map
    (fun p => (p.gameId, p.playerId))

/-- Sequential effect of an arbitrary run of gameplayer-table writes. -/
def applySteps (steps : List StoreStep) (l : List Player) : List Player :=
  steps.foldl (fun acc st => applyStoreStep st acc) l

theorem find?_gameId_map (l : List GameRec) (gid : String) (f : GameRec → GameRec)
    (hf : ∀ g, (f g).gameId = g.gameId) :
    (l.map (fun g => if g.gameId = gid then f g else g)).find?
        (fun g => g.gameId = gid)
      = (l.find? (fun g => g.gameId = gid)).map f := by
  induction l with
  | nil => rfl
  | cons g l ih =>
    by_cases h : g.gameId = gid
    · simp [List.find?_cons, if_pos h, hf g, h]
    · simp [List.find?_cons, if_neg h, h, ih]

theorem getGame_updGame (s : Store) (gid : String) (f : GameRec → GameRec)
    (hf : ∀ g, (f g).gameId = g.gameId) :
    getGame (updGame s gid f) gid = (getGame s gid).map f :=
  find?_gameId_map s.games gid f hf

theorem updGame_players (s : Store) (gid : String) (f : GameRec → GameRec) :
    (updGame s gid f).players = s.players := rfl

theorem ensureCounters_gameId (g : GameRec) : (ensureCounters g).gameId = g.gameId := rfl

theorem applyReserve_gameId (now : String) (g : GameRec) :
    (applyReserve now g).gameId = g.gameId := rfl

theorem applyRollback_gameId (now : String) (g : GameRec) :
    (applyRollback now g).gameId = g.gameId := rfl

/-- If the allocation loop fails (retries exhausted or a non-race put
failure), the store it returns is exactly the entry store with the slot
reservation rolled back. -/
theorem allocLoop_fail_state (gid psid username : String) (code : Int)
    (now gameType : String) (pick : CatalogChoice) :
    ∀ (n : Nat) (faults : List PutOutcome) (s : Store),
      (allocLoop gid psid username code now gameType pick n faults s).1 = .raceExhausted ∨
      (allocLoop gid psid username code now gameType pick n faults s).1 = .putFailed →
      (allocLoop gid psid username code now gameType pick n faults s).2
        = updGame s gid (applyRollback now) := by
  intro n
  induction n with
  | zero => intro faults s _; rfl
  | succ n ih =>
    intro faults s h
    simp only [allocLoop] at h ⊢
    split at h
    · simp at h
    · exact ih faults.tail s h
    · rfl

/-- The allocation loop never removes or edits existing player records: it
either returns the entry player list or appends the new item. -/
theorem allocLoop_players (gid psid username : String) (code : Int)
    (now gameType : String) (pick : CatalogChoice) :
    ∀ (n : Nat) (faults : List PutOutcome) (s : Store),
      ((allocLoop gid psid username code now gameType pick n faults s).2.players
        = s.players) ∨
      (∃ item, (allocLoop gid psid username code now gameType pick n faults s).2.players
        = s.players ++ [item]) := by
  intro n
  induction n with
  | zero => intro faults s; exact Or.inl rfl
  | succ n ih =>
    intro faults s
    simp only [allocLoop]
    split
    · exact Or.inr ⟨_, rfl⟩
    · exact ih faults.tail s
    · exact Or.inl rfl

/-- Every player of the partition has its id bounded by `lastPlayerId`
(the descending-index read). -/
theorem le_lastPlayerId (s : Store) (gid : String) :
    ∀ p ∈ s.players, p.gameId = gid → p.playerId ≤ lastPlayerId s gid := by
  show ∀ p ∈ s.players, p.gameId = gid →
    p.playerId ≤ s.players.foldr (fun p acc => if p.gameId = gid then max p.playerId acc else acc) 0
  induction s.players with
  | nil => intro p hp; cases hp
  | cons q l ih =>
    intro p hp hgid
    rcases List.mem_cons.mp hp with h' | h'
    · subst h'
      simp only [List.foldr_cons, if_pos hgid]
      exact le_max_left _ _
    · have hle := ih p h' hgid
      simp only [List.foldr_cons]
      by_cases hq : q.gameId = gid
      · rw [if_pos hq]; exact le_trans hle (le_max_right _ _)
      · rw [if_neg hq]; exact hle

/-- The allocation loop leaves the games table unchanged on success and
applies the rollback to it on failure. -/
theorem allocLoop_games (gid psid username : String) (code : Int)
    (now gameType : String) (pick : CatalogChoice) :
    ∀ (n : Nat) (faults : List PutOutcome) (s : Store),
      (allocLoop gid psid username code now gameType pick n faults s).2.games = s.games ∨
      (allocLoop gid psid username code now gameType pick n faults s).2.games
        = (updGame s gid (applyRollback now)).games := by
  intro n
  induction n with
  | zero => intro faults s; exact Or.inr rfl
  | succ n ih =>
    intro faults s
    simp only [allocLoop]
    split
    · exact Or.inl rfl
    · exact ih faults.tail s
    · exact Or.inr rfl

/-- When the fresh candidate id is not raced and the put succeeds, one pass
of the allocation loop admits the new player. -/
theorem allocLoop_succ_success (gid psid username : String) (code : Int)
    (now gameType : String) (pick : CatalogChoice) (n : Nat)
    (faults : List PutOutcome) (s : Store)
    (hraced : ∀ p ∈ s.players, ¬(p.gameId = gid ∧ p.playerId = lastPlayerId s gid + 1))
    (hf : faults.headD .success = .success) :
    allocLoop gid psid username code now gameType pick (n + 1) faults s
      = (.okNew (mkJoinItem gid (lastPlayerId s gid + 1) psid username now code gameType pick),
         { s with players :=
            s.players ++ [mkJoinItem gid (lastPlayerId s gid + 1) psid username now code gameType pick] }) := by
  have hr : s.players.any
      (fun p => decide (p.gameId = gid ∧ p.playerId = lastPlayerId s gid + 1)) = false := by
    simp only [List.any_eq_false]
    intro p hp
    simpa using hraced p hp
  simp only [allocLoop, hr, Bool.false_eq_true, if_false, hf]

/-- A single join preserves the capacity bound on `playersCount` and never
changes `maxPlayers`. -/
theorem join_preserves_bound (gid : String) (req : JoinReq) (s : Store)
    (meta : GameRec) (M : Int)
    (hg : getGame s gid = some meta) (hM : meta.maxPlayers = some M) (hMpos : 0 < M)
    (hle : meta.playersCount.getD 0 ≤ M) :
    ∃ meta',
      getGame (joinHandler gid req.psid req.username req.code req.now req.pick req.faults s).2 gid
        = some meta' ∧
      meta'.maxPlayers = some M ∧ meta'.playersCount.getD 0 ≤ M := by
  by_cases h1 : req.psid = "" ∨ gid = ""
  · exact ⟨meta, by simp [joinHandler, h1, hg], hM, hle⟩
  by_cases h2 : req.username = ""
  · exact ⟨meta, by simp [joinHandler, h1, h2, hg], hM, hle⟩
  by_cases h3 : meta.isActive.getD true = false
  · exact ⟨meta, by simp [joinHandler, h1, h2, hg, h3], hM, hle⟩
  rcases hf : findExistingByPsid s gid req.psid with _ | p
  · have hmax : effectiveMaxPlayers meta = M := by
      simp [effectiveMaxPlayers, hM]
      intro h0
      omega
    by_cases h4 : reserveCond (ensureCounters meta) (effectiveMaxPlayers meta) = true
    · have hred :
          (joinHandler gid req.psid req.username req.code req.now req.pick req.faults s).2
            = (allocLoop gid req.psid req.username req.code req.now
                (strUpper (meta.gameType.getD "UNKNOWN")) req.pick 6 req.faults
                (updGame (updGame s gid ensureCounters) gid (applyReserve req.now))).2 := by
        simp [joinHandler, h1, h2, hg, h3, hf, h4]
      -- the counter after the reservation
      have hlt : meta.playersCount.getD 0 < M := by
        have h4' := h4
        simp only [reserveCond, ensureCounters, hmax] at h4'
        simpa using h4'
      have hg2 : getGame (updGame (updGame s gid ensureCounters) gid (applyReserve req.now)) gid
          = some (applyReserve req.now (ensureCounters meta)) := by
        rw [getGame_updGame _ gid (applyReserve req.now) (applyReserve_gameId req.now),
            getGame_updGame _ gid ensureCounters ensureCounters_gameId, hg]
        rfl
      rcases allocLoop_games gid req.psid req.username req.code req.now
          (strUpper (meta.gameType.getD "UNKNOWN")) req.pick 6 req.faults
          (updGame (updGame s gid ensureCounters) gid (applyReserve req.now)) with hga | hga
      · refine ⟨applyReserve req.now (ensureCounters meta), ?_, hM, ?_⟩
        · have hgg : getGame (allocLoop gid req.psid req.username req.code req.now
              (strUpper (meta.gameType.getD "UNKNOWN")) req.pick 6 req.faults
              (updGame (updGame s gid ensureCounters) gid (applyReserve req.now))).2 gid
              = getGame (updGame (updGame s gid ensureCounters) gid (applyReserve req.now)) gid := by
            simp only [getGame, hga]
          rw [hred, hgg]
          exact hg2
        · simp [applyReserve, ensureCounters]
          omega
      · refine ⟨applyRollback req.now (applyReserve req.now (ensureCounters meta)), ?_, hM, ?_⟩
        · have hgg : getGame (allocLoop gid req.psid req.username req.code req.now
              (strUpper (meta.gameType.getD "UNKNOWN")) req.pick 6 req.faults
              (updGame (updGame s gid ensureCounters) gid (applyReserve req.now))).2 gid
              = getGame (updGame (updGame (updGame s gid ensureCounters) gid
                  (applyReserve req.now)) gid (applyRollback req.now)) gid := by
            simp only [getGame, hga]
          rw [hred, hgg,
            getGame_updGame _ gid (applyRollback req.now) (applyRollback_gameId req.now), hg2]
          rfl
        · simp [applyRollback, applyReserve, ensureCounters]
          omega
    · refine ⟨ensureCounters meta, ?_, hM, ?_⟩
      · have : (joinHandler gid req.psid req.username req.code req.now req.pick req.faults s).2
            = updGame s gid ensureCounters := by
          simp [joinHandler, h1, h2, hg, h3, hf, h4]
        rw [this, getGame_updGame _ gid ensureCounters ensureCounters_gameId, hg]
        rfl
      · simpa [ensureCounters] using hle
  · exact ⟨meta, by simp [joinHandler, h1, h2, hg, h3, hf], hM, hle⟩

/-- Any sequence of joins preserves the capacity bound. -/
theorem joinMany_preserves_bound (gid : String) (reqs : List JoinReq) :
    ∀ (s : Store) (meta : GameRec) (M : Int),
      getGame s gid = some meta → meta.maxPlayers = some M → 0 < M →
      meta.playersCount.getD 0 ≤ M →
      ∃ meta', getGame (joinMany gid reqs s).2 gid = some meta' ∧
        meta'.maxPlayers = some M ∧ meta'.playersCount.getD 0 ≤ M := by
  induction reqs with
  | nil => intro s meta M hg hM hMpos hle; exact ⟨meta, hg, hM, hle⟩
  | cons r rs ih =>
    intro s meta M hg hM hMpos hle
    obtain ⟨meta', hg', hM', hle'⟩ := join_preserves_bound gid r s meta M hg hM hMpos hle
    simpa [joinMany] using ih _ meta' M hg' hM' hMpos hle'

/-- A join with a fresh identity into a single-game store with remaining
capacity is admitted: the slot is reserved and the new record is created on
the first allocation attempt. -/
theorem joinHandler_fresh_admit (gid : String) (g : GameRec) (ps : List Player)
    (r : JoinReq) (M : Int)
    (hgid : g.gameId = gid) (hact : g.isActive = some true)
    (hM : g.maxPlayers = some M) (hMpos : 0 < M)
    (hpc : g.playersCount = some ((ps.length : Int)))
    (hlt : (ps.length : Int) < M)
    (hfresh : ∀ p ∈ ps, p.instagramPSID ≠ some r.psid)
    (hps : ∀ p ∈ ps, p.gameId = gid)
    (hpsid : r.psid ≠ "") (husr : r.username ≠ "") (hfaults : r.faults = [])
    (hgidne : gid ≠ "") :
    joinHandler gid r.psid r.username r.code r.now r.pick r.faults ⟨[g], ps⟩
      = (.okNew (mkJoinItem gid (lastPlayerId ⟨[g], ps⟩ gid + 1) r.psid r.username r.now
            r.code (strUpper (g.gameType.getD "UNKNOWN")) r.pick),
         ⟨[applyReserve r.now (ensureCounters g)],
          ps ++ [mkJoinItem gid (lastPlayerId ⟨[g], ps⟩ gid + 1) r.psid r.username r.now
            r.code (strUpper (g.gameType.getD "UNKNOWN")) r.pick]⟩) := by
  have hgg : getGame ⟨[g], ps⟩ gid = some g := by
    simp [getGame, hgid]
  have hfind : findExistingByPsid ⟨[g], ps⟩ gid r.psid = none := by
    apply List.find?_eq_none.mpr
    intro p hp
    simp only [decide_eq_true_eq, not_and]
    intro hpsid_eq
    exact absurd hpsid_eq (hfresh p hp)
  have hMne : M ≠ 0 := by omega
  have hcond : reserveCond (ensureCounters g) (effectiveMaxPlayers g) = true := by
    simp only [reserveCond, ensureCounters, hpc, effectiveMaxPlayers, hM, if_neg hMne,
      Option.getD_some, decide_eq_true_eq]
    exact hlt
  have hupd : updGame (updGame ⟨[g], ps⟩ gid ensureCounters) gid (applyReserve r.now)
      = ⟨[applyReserve r.now (ensureCounters g)], ps⟩ := by
    simp [updGame, hgid, ensureCounters_gameId]
  have hred : joinHandler gid r.psid r.username r.code r.now r.pick r.faults ⟨[g], ps⟩
      = allocLoop gid r.psid r.username r.code r.now (strUpper (g.gameType.getD "UNKNOWN"))
          r.pick 6 r.faults ⟨[applyReserve r.now (ensureCounters g)], ps⟩ := by
    rw [show (6 : Nat) = 5 + 1 from rfl]
    simp [joinHandler, hpsid, hgidne, husr, hgg, hact, hfind, hcond, hupd]
  rw [hred, hfaults]
  have hraced : ∀ p ∈ (Store.mk [applyReserve r.now (ensureCounters g)] ps).players,
      ¬(p.gameId = gid ∧
        p.playerId = lastPlayerId ⟨[applyReserve r.now (ensureCounters g)], ps⟩ gid + 1) := by
    intro p hp
    rintro ⟨hpg, hpid⟩
    have := le_lastPlayerId ⟨[applyReserve r.now (ensureCounters g)], ps⟩ gid p hp hpg
    omega
  exact allocLoop_succ_success gid r.psid r.username r.code r.now
    (strUpper (g.gameType.getD "UNKNOWN")) r.pick 5 [] _ hraced rfl

/-- A join with a fresh identity into a full single-game store is rejected
with `player_limit_reached`; only the idempotent counter initialisation is
written. -/
theorem joinHandler_fresh_reject (gid : String) (g : GameRec) (ps : List Player)
    (r : JoinReq) (M : Int)
    (hgid : g.gameId = gid) (hact : g.isActive = some true)
    (hM : g.maxPlayers = some M) (hMpos : 0 < M)
    (hpc : g.playersCount = some ((ps.length : Int)))
    (hge : ¬((ps.length : Int) < M))
    (hfresh : ∀ p ∈ ps, p.instagramPSID ≠ some r.psid)
    (hpsid : r.psid ≠ "") (husr : r.username ≠ "")
    (hgidne : gid ≠ "") :
    joinHandler gid r.psid r.username r.code r.now r.pick r.faults ⟨[g], ps⟩
      = (.limitReached, ⟨[ensureCounters g], ps⟩) := by
  have hgg : getGame ⟨[g], ps⟩ gid = some g := by
    simp [getGame, hgid]
  have hfind : findExistingByPsid ⟨[g], ps⟩ gid r.psid = none := by
    apply List.find?_eq_none.mpr
    intro p hp
    simp only [decide_eq_true_eq, not_and]
    intro hpsid_eq
    exact absurd hpsid_eq (hfresh p hp)
  have hMne : M ≠ 0 := by omega
  have hcond : reserveCond (ensureCounters g) (effectiveMaxPlayers g) = false := by
    simp only [reserveCond, ensureCounters, hpc, effectiveMaxPlayers, hM, if_neg hMne,
      Option.getD_some, decide_eq_false_iff_not]
    exact hge
  have hupd : updGame ⟨[g], ps⟩ gid ensureCounters = ⟨[ensureCounters g], ps⟩ := by
    simp [updGame, hgid]
  simp [joinHandler, hpsid, hgidne, husr, hgg, hact, hfind, hcond, hupd]

/-- Invariant pack for sequences of fresh-identity joins against a
single-game store: the partition grows to `min (initial + requests) M`, the
counter tracks the partition size exactly, admissions and capacity
rejections are counted. -/
theorem joinMany_fresh_pack (gid : String) (M : Int) :
    ∀ (reqs : List JoinReq) (g : GameRec) (ps : List Player),
      g.gameId = gid → g.isActive = some true → g.maxPlayers = some M → 0 < M →
      g.playersCount = some ((ps.length : Int)) → (ps.length : Int) ≤ M →
      (∀ p ∈ ps, p.gameId = gid) →
      (∀ p ∈ ps, ∀ r ∈ reqs, p.instagramPSID ≠ some r.psid) →
      (reqs.map JoinReq.psid).Nodup →
      (∀ r ∈ reqs, r.psid ≠ "" ∧ r.username ≠ "" ∧ r.faults = []) →
      gid ≠ "" →
      (joinMany gid reqs ⟨[g], ps⟩).2.players.length
          = min (ps.length + reqs.length) M.toNat ∧
      (joinMany gid reqs ⟨[g], ps⟩).1.countP isOkNew
          = min (ps.length + reqs.length) M.toNat - ps.length ∧
      (joinMany gid reqs ⟨[g], ps⟩).1.countP isLimitReached
          = ps.length + reqs.length - min (ps.length + reqs.length) M.toNat ∧
      ∃ g', (joinMany gid reqs ⟨[g], ps⟩).2.games = [g'] ∧ g'.gameId = gid ∧
        g'.playersCount = some (((joinMany gid reqs ⟨[g], ps⟩).2.players.length : Int)) := by
  intro reqs
  induction reqs with
  | nil =>
    intro g ps hgid hact hM hMpos hpc hle hps _ _ _ _
    refine ⟨?_, ?_, ?_, g, rfl, hgid, ?_⟩
    · simp only [joinMany, List.length_nil]
      omega
    · simp only [joinMany, List.countP_nil, List.length_nil]
      omega
    · simp only [joinMany, List.countP_nil, List.length_nil]
      omega
    · simp only [joinMany]
      exact hpc
  | cons r rs ih =>
    intro g ps hgid hact hM hMpos hpc hle hps hfresh hnodup hok hgidne
    obtain ⟨hpsid, husr, hfaults⟩ := hok r (List.mem_cons_self r rs)
    have hok' : ∀ x ∈ rs, x.psid ≠ "" ∧ x.username ≠ "" ∧ x.faults = [] :=
      fun x hx => hok x (List.mem_cons_of_mem r hx)
    have hnodup' : (rs.map JoinReq.psid).Nodup := (List.nodup_cons.mp hnodup).2
    have hrfresh : r.psid ∉ rs.map JoinReq.psid := (List.nodup_cons.mp hnodup).1
    by_cases hlt : (ps.length : Int) < M
    · -- admitted
      have hstep := joinHandler_fresh_admit gid g ps r M hgid hact hM hMpos hpc hlt
        (fun p hp => hfresh p hp r (List.mem_cons_self r rs)) hps hpsid husr hfaults hgidne
      have hrec := ih (applyReserve r.now (ensureCounters g))
        (ps ++ [mkJoinItem gid (lastPlayerId ⟨[g], ps⟩ gid + 1) r.psid r.username r.now
          r.code (strUpper (g.gameType.getD "UNKNOWN")) r.pick])
        (by simpa [applyReserve, ensureCounters] using hgid)
        (by simp [applyReserve, ensureCounters, hact])
        (by simp [applyReserve, ensureCounters, hM])
        hMpos
        (by simp [applyReserve, ensureCounters, hpc])
        (by simp; omega)
        (by
          intro p hp
          rcases List.mem_append.mp hp with hp' | hp'
          · exact hps p hp'
          · simp only [List.mem_singleton] at hp'
            subst hp'
            rfl)
        (by
          intro p hp r' hr'
          rcases List.mem_append.mp hp with hp' | hp'
          · exact hfresh p hp' r' (List.mem_cons_of_mem r hr')
          · simp only [List.mem_singleton] at hp'
            subst hp'
            simp only [mkJoinItem]
            intro hcontra
            apply hrfresh
            rw [Option.some.inj hcontra]
            exact List.mem_map_of_mem JoinReq.psid hr')
        hnodup' hok' hgidne
      obtain ⟨hA, hB, hC, g', hg1, hg2, hg3⟩ := hrec
      have hlen : (ps ++ [mkJoinItem gid (lastPlayerId ⟨[g], ps⟩ gid + 1) r.psid r.username
          r.now r.code (strUpper (g.gameType.getD "UNKNOWN")) r.pick]).length
          = ps.length + 1 := by simp
      rw [hlen] at hA hB hC
      refine ⟨?_, ?_, ?_, g', ?_, hg2, ?_⟩
      · simp only [joinMany, hstep, List.length_cons]
        rw [hA]
        omega
      · simp only [joinMany, hstep, List.countP_cons, List.length_cons]
        rw [hB]
        simp only [isOkNew, if_true]
        omega
      · simp only [joinMany, hstep, List.countP_cons, List.length_cons]
        rw [hC]
        simp [isLimitReached]
        omega
      · simp only [joinMany, hstep]
        exact hg1
      · simp only [joinMany, hstep]
        exact hg3
    · -- capacity-rejected
      have hstep := joinHandler_fresh_reject gid g ps r M hgid hact hM hMpos hpc hlt
        (fun p hp => hfresh p hp r (List.mem_cons_self r rs)) hpsid husr hgidne
      have hrec := ih (ensureCounters g) ps
        (by simpa [ensureCounters] using hgid)
        (by simp [ensureCounters, hact])
        (by simp [ensureCounters, hM])
        hMpos
        (by simp [ensureCounters, hpc])
        hle hps
        (fun p hp r' hr' => hfresh p hp r' (List.mem_cons_of_mem r hr'))
        hnodup' hok' hgidne
      obtain ⟨hA, hB, hC, g', hg1, hg2, hg3⟩ := hrec
      refine ⟨?_, ?_, ?_, g', ?_, hg2, ?_⟩
      · simp only [joinMany, hstep, List.length_cons]
        rw [hA]
        omega
      · simp only [joinMany, hstep, List.countP_cons, List.length_cons]
        rw [hB]
        simp [isOkNew]
        omega
      · simp only [joinMany, hstep, List.countP_cons, List.length_cons]
        rw [hC]
        simp [isLimitReached]
        omega
      · simp only [joinMany, hstep]
        exact hg1
      · simp only [joinMany, hstep]
        exact hg3

/-- C1: for every game whose `maxPlayers` is a positive integer `M`, after
any sequence of Join operations `playersCount` never exceeds `M` (the slot
is consumed only by the capacity-guarded conditional increment, an absent
counter treated as zero), and firing `M + K` joins with distinct identities
at a fresh game admits exactly `M` players — each surplus join is rejected
with `player_limit_reached` (`limitReached`), creating no player record —
with `playersCount` ending exactly at `M`. -/
theorem playersCount_never_exceeds_maxPlayers :
    (∀ (gid : String) (reqs : List JoinReq) (s : Store) (meta : GameRec) (M : Int),
      getGame s gid = some meta → meta.maxPlayers = some M → 0 < M →
      meta.playersCount.getD 0 ≤ M →
      ∃ meta', getGame (joinMany gid reqs s).2 gid = some meta' ∧
        meta'.maxPlayers = some M ∧ meta'.playersCount.getD 0 ≤ M) ∧
    (∀ (gid : String) (M : Int) (K : Nat) (reqs : List JoinReq) (g : GameRec),
      g.gameId = gid → g.isActive = some true → g.maxPlayers = some M → 0 < M →
      g.playersCount = some 0 → reqs.length = M.toNat + K →
      (reqs.map JoinReq.psid).Nodup →
      (∀ r ∈ reqs, r.psid ≠ "" ∧ r.username ≠ "" ∧ r.faults = []) →
      gid ≠ "" →
      (joinMany gid reqs ⟨[g], []⟩).2.players.length = M.toNat ∧
      (joinMany gid reqs ⟨[g], []⟩).1.countP isOkNew = M.toNat ∧
      (joinMany gid reqs ⟨[g], []⟩).1.countP isLimitReached = K ∧
      ∃ g', (joinMany gid reqs ⟨[g], []⟩).2.games = [g'] ∧
        g'.playersCount = some ((M.toNat : Int))) := by
  constructor
  · intro gid reqs s meta M hg hM hMpos hle
    exact joinMany_preserves_bound gid reqs s meta M hg hM hMpos hle
  · intro gid M K reqs g hgid hact hM hMpos hpc hlen hnodup hok hgidne
    have hpack := joinMany_fresh_pack gid M reqs g []
      hgid hact hM hMpos (by simpa using hpc) (by simpa using le_of_lt hMpos)
      (by intro p hp; cases hp) (by intro p hp; cases hp) hnodup hok hgidne
    obtain ⟨hA, hB, hC, g', hg1, _, hg3⟩ := hpack
    have hmin : min (([] : List Player).length + reqs.length) M.toNat = M.toNat := by
      simp only [List.length_nil, Nat.zero_add, hlen]
      omega
    rw [hmin] at hA hB hC
    refine ⟨hA, by simpa using hB, by rw [hC]; simp [hlen], g', hg1, ?_⟩
    rw [hg3, hA]

/-- Witness for C1 at a fresh game with capacity 2 receiving 3 distinct
joins: the bound holds and exactly 2 are admitted, 1 capacity-rejected. -/
theorem playersCount_never_exceeds_maxPlayers_witness :
    (∃ meta', getGame (joinMany "G1" [reqA, reqB, reqC] sFreshW).2 "G1" = some meta' ∧
      meta'.maxPlayers = some 2 ∧ meta'.playersCount.getD 0 ≤ 2) ∧
    ((joinMany "G1" [reqA, reqB, reqC] ⟨[gFreshW], []⟩).2.players.length = (2 : Int).toNat ∧
      (joinMany "G1" [reqA, reqB, reqC] ⟨[gFreshW], []⟩).1.countP isOkNew = (2 : Int).toNat ∧
      (joinMany "G1" [reqA, reqB, reqC] ⟨[gFreshW], []⟩).1.countP isLimitReached = 1 ∧
      ∃ g', (joinMany "G1" [reqA, reqB, reqC] ⟨[gFreshW], []⟩).2.games = [g'] ∧
        g'.playersCount = some (((2 : Int).toNat : Int))) :=
  ⟨playersCount_never_exceeds_maxPlayers.1 "G1" [reqA, reqB, reqC] sFreshW gFreshW 2
      (by decide) (by decide) (by decide) (by decide),
   playersCount_never_exceeds_maxPlayers.2 "G1" 2 1 [reqA, reqB, reqC] gFreshW
      (by decide) (by decide) (by decide) (by decide) (by decide) (by decide)
      (by decide) (by decide) (by decide)⟩

/-! ### Sampling lemmas -/

theorem sampleWR_length {α : Type} :
    ∀ (ps : List Nat) (l : List α), validPicks l ps = true →
      (sampleWR l ps).length = ps.length := by
  intro ps
  induction ps with
  | nil => intro l _; rfl
  | cons i rest ih =>
    intro l hv
    simp only [validPicks, Bool.and_eq_true, decide_eq_true_eq] at hv
    obtain ⟨hi, hrest⟩ := hv
    simp only [sampleWR, dif_pos hi, List.length_cons, ih (l.eraseIdx i) hrest]

theorem sampleWR_subset {α : Type} :
    ∀ (ps : List Nat) (l : List α), ∀ x ∈ sampleWR l ps, x ∈ l := by
  intro ps
  induction ps with
  | nil => intro l x hx; cases hx
  | cons i rest ih =>
    intro l x hx
    simp only [sampleWR] at hx
    split at hx
    · rename_i hi
      rcases List.mem_cons.mp hx with h | h
      · subst h; exact List.get_mem l i hi
      · exact List.eraseIdx_subset l i (ih (l.eraseIdx i) x h)
    · cases hx

theorem sampleWR_nodup {α : Type} :
    ∀ (ps : List Nat) (l : List α), l.Nodup → (sampleWR l ps).Nodup := by
  intro ps
  induction ps with
  | nil => intro l _; exact List.nodup_nil
  | cons i rest ih =>
    intro l hl
    simp only [sampleWR]
    split
    · rename_i hi
      refine List.nodup_cons.mpr ⟨?_, ih (l.eraseIdx i) (hl.eraseIdx i)⟩
      intro hmem
      have hmem' : l.get ⟨i, hi⟩ ∈ l.eraseIdx i :=
        sampleWR_subset rest (l.eraseIdx i) _ hmem
      obtain ⟨j, hj, hji, hget⟩ := List.mem_eraseIdx_iff_getElem.mp hmem'
      have : (⟨j, hj⟩ : Fin l.length) = ⟨i, hi⟩ := hl.get_inj_iff.mp hget
      exact hji (by simpa using congrArg Fin.val this)
    · exact List.nodup_nil

theorem sampleWR_inj {α : Type} :
    ∀ (ps1 ps2 : List Nat) (l : List α), l.Nodup →
      validPicks l ps1 = true → validPicks l ps2 = true →
      sampleWR l ps1 = sampleWR l ps2 → ps1 = ps2 := by
  intro ps1
  induction ps1 with
  | nil =>
    intro ps2 l _ _ hv2 he
    cases ps2 with
    | nil => rfl
    | cons j r2 =>
      simp only [validPicks, Bool.and_eq_true, decide_eq_true_eq] at hv2
      simp only [sampleWR, dif_pos hv2.1] at he
      cases he
  | cons i r1 ih =>
    intro ps2 l hl hv1 hv2 he
    simp only [validPicks, Bool.and_eq_true, decide_eq_true_eq] at hv1
    cases ps2 with
    | nil =>
      simp only [sampleWR, dif_pos hv1.1] at he
      cases he
    | cons j r2 =>
      simp only [validPicks, Bool.and_eq_true, decide_eq_true_eq] at hv2
      simp only [sampleWR, dif_pos hv1.1, dif_pos hv2.1, List.cons.injEq] at he
      have hij : (⟨i, hv1.1⟩ : Fin l.length) = ⟨j, hv2.1⟩ := hl.get_inj_iff.mp he.1
      have hij' : i = j := by simpa using congrArg Fin.val hij
      subst hij'
      have := ih r2 (l.eraseIdx i) (hl.eraseIdx i) hv1.2 hv2.2 he.2
      rw [this]

theorem sampleWR_exists {α : Type} [DecidableEq α] :
    ∀ (out l : List α), l.Nodup → out.Nodup → (∀ x ∈ out, x ∈ l) →
      ∃ ps : List Nat, validPicks l ps = true ∧ sampleWR l ps = out := by
  intro out
  induction out with
  | nil => intro l _ _ _; exact ⟨[], rfl, rfl⟩
  | cons x rest ih =>
    intro l hl hnd hsub
    have hx : x ∈ l := hsub x (List.mem_cons_self x rest)
    have hi : l.indexOf x < l.length := List.indexOf_lt_length.mpr hx
    have hxnotin : x ∉ rest := (List.nodup_cons.mp hnd).1
    have hsub' : ∀ y ∈ rest, y ∈ l.eraseIdx (l.indexOf x) := by
      intro y hy
      have hyl : y ∈ l := hsub y (List.mem_cons_of_mem x hy)
      obtain ⟨j, hj, hyj⟩ := List.mem_iff_getElem.mp hyl
      refine List.mem_eraseIdx_iff_getElem.mpr ⟨j, hj, ?_, hyj⟩
      intro hji
      subst hji
      rw [List.getElem_indexOf hi] at hyj
      subst hyj
      exact hxnotin hy
    obtain ⟨ps, hv, hs⟩ := ih (l.eraseIdx (l.indexOf x))
      (hl.eraseIdx _) ((List.nodup_cons.mp hnd).2) hsub'
    refine ⟨l.indexOf x :: ps, ?_, ?_⟩
    · simp only [validPicks, Bool.and_eq_true, decide_eq_true_eq]
      exact ⟨hi, hv⟩
    · simp only [sampleWR, dif_pos hi, hs]
      rw [List.indexOf_get hi]

theorem sampleWR_exists_unique {α : Type} [DecidableEq α]
    (out l : List α) (hl : l.Nodup) (hnd : out.Nodup) (hsub : ∀ x ∈ out, x ∈ l) :
    ∃! ps : List Nat, validPicks l ps = true ∧ sampleWR l ps = out := by
  obtain ⟨ps, hv, hs⟩ := sampleWR_exists out l hl hnd hsub
  refine ⟨ps, ⟨hv, hs⟩, ?_⟩
  intro qs ⟨hv', hs'⟩
  exact sampleWR_inj qs ps l hl hv' hv (hs'.trans hs.symm)

/-! ### Effect of player-table writes on keys and on the eligibility marker -/

theorem mapGet_mapSet_self {β : Type} :
    ∀ (m : List (String × β)) (k : String) (v : β), mapGet (mapSet m k v) k = some v := by
  intro m
  induction m with
  | nil => intro k v; simp [mapSet, mapGet]
  | cons kv rest ih =>
    intro k v
    by_cases h : kv.1 = k
    · simp [mapSet, mapGet, h]
    · simp only [mapSet, mapGet]
      rw [if_neg h, mapGet, if_neg h]
      exact ih k v

theorem applyPlayerWrite_gameId (w : PlayerWrite) (p : Player) :
    (applyPlayerWrite w p).gameId = p.gameId := by
  cases w <;> simp only [applyPlayerWrite, setBlob] <;> (repeat' split) <;> rfl

theorem applyPlayerWrite_playerId (w : PlayerWrite) (p : Player) :
    (applyPlayerWrite w p).playerId = p.playerId := by
  cases w <;> simp only [applyPlayerWrite, setBlob] <;> (repeat' split) <;> rfl

/-- No update expression of the codebase ever writes `eligibleForGameId`:
each one either leaves it unchanged or removes it (the raffle `REMOVE`). -/
theorem applyPlayerWrite_elig (w : PlayerWrite) (p : Player) :
    (applyPlayerWrite w p).eligibleForGameId = p.eligibleForGameId ∨
    (applyPlayerWrite w p).eligibleForGameId = none := by
  cases w <;> simp only [applyPlayerWrite, setBlob] <;> (repeat' split) <;> simp

/-- A freshly joined player record carries no eligibility marker: the base
item and every assigner patch omit `eligibleForGameId`. -/
theorem mkJoinItem_elig (gid : String) (pid : Int) (psid username now : String)
    (code : Int) (gameType : String) (pick : CatalogChoice) :
    (mkJoinItem gid pid psid username now code gameType pick).eligibleForGameId = none := rfl

/-- Characterisation of the members of the player table after an
`update_item`: each is an (possibly updated) original member, or the
upserted item grown from the bare key. -/
theorem applyStoreStep_upd_mem (gid : String) (pid : Int) (w : PlayerWrite)
    (l : List Player) :
    ∀ p' ∈ applyStoreStep (.upd gid pid w) l,
      (∃ p ∈ l, p' = if p.gameId = gid ∧ p.playerId = pid then applyPlayerWrite w p else p) ∨
      p' = applyPlayerWrite w { gameId := gid, playerId := pid } := by
  intro p' hp'
  simp only [applyStoreStep] at hp'
  split at hp'
  · obtain ⟨p, hp, he⟩ := List.mem_map.mp hp'
    exact Or.inl ⟨p, hp, he.symm⟩
  · rename_i hany
    have hnokey : ∀ p ∈ l, ¬(p.gameId = gid ∧ p.playerId = pid) := by
      intro p hp hc
      exact hany (List.any_eq_true.mpr ⟨p, hp, by simpa using hc⟩)
    split at hp'
    · exact Or.inl ⟨p', hp', by rw [if_neg (hnokey p' hp')]⟩
    · rcases List.mem_append.mp hp' with h | h
      · exact Or.inl ⟨p', h, by rw [if_neg (hnokey p' h)]⟩
      · exact Or.inr (List.mem_singleton.mp h)

/-- When the key is present, the update maps the table pointwise. -/
theorem applyStoreStep_upd_of_present (gid : String) (pid : Int) (w : PlayerWrite)
    (l : List Player)
    (hany : l.any (fun p => decide (p.gameId = gid ∧ p.playerId = pid)) = true) :
    applyStoreStep (.upd gid pid w) l
      = l.map (fun p => if p.gameId = gid ∧ p.playerId = pid then applyPlayerWrite w p else p) := by
  simp only [applyStoreStep, hany, if_true]

/-- Updates preserve presence of the addressed key. -/
theorem applyStoreStep_upd_key_stays (gid : String) (pid : Int) (w : PlayerWrite)
    (l : List Player)
    (hany : l.any (fun p => decide (p.gameId = gid ∧ p.playerId = pid)) = true) :
    (applyStoreStep (.upd gid pid w) l).any
      (fun p => decide (p.gameId = gid ∧ p.playerId = pid)) = true := by
  rw [applyStoreStep_upd_of_present gid pid w l hany]
  obtain ⟨p, hp, hcond⟩ := List.any_eq_true.mp hany
  refine List.any_eq_true.mpr ⟨_, List.mem_map_of_mem _ hp, ?_⟩
  simp only [decide_eq_true_eq] at hcond
  rw [if_pos hcond]
  simp [applyPlayerWrite_gameId, applyPlayerWrite_playerId, hcond.1, hcond.2]

/-- The first `_mark_winner` update (`ensure type`) guarantees the addressed
key exists afterwards: it either edits the present item or upserts one. -/
theorem ensureType_key_present (gid : String) (pid : Int) (l : List Player) :
    (applyStoreStep (.upd gid pid .ensureTypeW) l).any
      (fun p => decide (p.gameId = gid ∧ p.playerId = pid)) = true := by
  by_cases hany : l.any (fun p => decide (p.gameId = gid ∧ p.playerId = pid)) = true
  · exact applyStoreStep_upd_key_stays gid pid _ l hany
  · have hne : applyPlayerWrite .ensureTypeW { gameId := gid, playerId := pid }
        ≠ ({ gameId := gid, playerId := pid } : Player) := by
      intro hc
      have := congrArg Player.type hc
      simp [applyPlayerWrite] at this
    simp only [applyStoreStep, hany, if_false]
    rw [if_neg hne]
    refine List.any_eq_true.mpr ⟨_, List.mem_append_right _ (List.mem_singleton_self _), ?_⟩
    simp [applyPlayerWrite_gameId, applyPlayerWrite_playerId]

/-- After `ensure type`, every key-matching member has a `type` map. -/
theorem ensureType_mem_type_isSome (gid : String) (pid : Int) (l : List Player) :
    ∀ p' ∈ applyStoreStep (.upd gid pid .ensureTypeW) l,
      p'.gameId = gid → p'.playerId = pid → p'.type.isSome := by
  intro p' hp' hg hpid
  rcases applyStoreStep_upd_mem gid pid _ l p' hp' with ⟨p, _, he⟩ | he
  · subst he
    by_cases hc : p.gameId = gid ∧ p.playerId = pid
    · rw [if_pos hc]
      simp [applyPlayerWrite]
    · rw [if_neg hc] at hg hpid ⊢
      exact absurd ⟨hg, hpid⟩ hc
  · subst he
    simp [applyPlayerWrite]

/-- After `ensure type` then `ensure type.<gk>`, every key-matching member
has the `type.<gk>` blob. -/
theorem ensureTypeKey_mem_blob_isSome (gid : String) (pid : Int) (gk : String)
    (l : List Player) :
    ∀ p' ∈ applyStoreStep (.upd gid pid (.ensureTypeKeyW gk))
        (applyStoreStep (.upd gid pid .ensureTypeW) l),
      p'.gameId = gid → p'.playerId = pid → (blobOf p' gk).isSome := by
  intro p' hp' hg hpid
  have hany1 := ensureType_key_present gid pid l
  rw [applyStoreStep_upd_of_present gid pid _ _ hany1] at hp'
  obtain ⟨p, hp, he⟩ := List.mem_map.mp hp'
  subst he
  by_cases hc : p.gameId = gid ∧ p.playerId = pid
  · rw [if_pos hc] at hg hpid ⊢
    have htype : p.type.isSome := ensureType_mem_type_isSome gid pid l p hp hc.1 hc.2
    obtain ⟨t, ht⟩ := Option.isSome_iff_exists.mp htype
    simp only [applyPlayerWrite, ht]
    rcases hmg : mapGet t gk with _ | b
    · simp [blobOf, mapGet_mapSet_self]
    · simp [blobOf, ht, hmg]
  · rw [if_neg hc] at hg hpid ⊢
    exact absurd ⟨hg, hpid⟩ hc

/-- Any player-table write preserves the absence of an eligibility marker
for a given player id. -/
theorem applyStoreStep_notElig (st : StoreStep) (l : List Player) (gid : String)
    (pid : Int) (h : notEligL l gid pid) : notEligL (applyStoreStep st l) gid pid := by
  cases st with
  | upd ugid upid w =>
    intro p' hp' hpid
    rcases applyStoreStep_upd_mem ugid upid w l p' hp' with ⟨p, hp, he⟩ | he
    · subst he
      by_cases hc : p.gameId = ugid ∧ p.playerId = upid
      · rw [if_pos hc] at hpid ⊢
        rcases applyPlayerWrite_elig w p with h1 | h1
        · rw [h1]
          exact h p hp (by rwa [applyPlayerWrite_playerId] at hpid)
        · rw [h1]
          simp
      · rw [if_neg hc] at hpid ⊢
        exact h p hp hpid
    · subst he
      rcases applyPlayerWrite_elig w { gameId := ugid, playerId := upid } with h1 | h1 <;>
        simp [h1]
  | createJoin cgid cpid psid username now code gameType pick =>
    intro p' hp' hpid
    rcases List.mem_append.mp hp' with hp | hp
    · exact h p' hp hpid
    · rw [List.mem_singleton.mp hp, mkJoinItem_elig]
      simp

/-- Any player-table write preserves the marker-points-at-own-game
invariant. -/
theorem applyStoreStep_markerConsistent (st : StoreStep) (l : List Player)
    (gid : String) (h : markerConsistentL l gid) :
    markerConsistentL (applyStoreStep st l) gid := by
  cases st with
  | upd ugid upid w =>
    intro p' hp' helig
    rcases applyStoreStep_upd_mem ugid upid w l p' hp' with ⟨p, hp, he⟩ | he
    · subst he
      by_cases hc : p.gameId = ugid ∧ p.playerId = upid
      · rw [if_pos hc] at helig ⊢
        rcases applyPlayerWrite_elig w p with h1 | h1
        · rw [applyPlayerWrite_gameId]
          exact h p hp (h1 ▸ helig)
        · rw [h1] at helig
          cases helig
      · rw [if_neg hc] at helig ⊢
        exact h p hp helig
    · subst he
      rcases applyPlayerWrite_elig w { gameId := ugid, playerId := upid } with h1 | h1 <;>
        rw [h1] at helig
      · cases helig
      · cases helig
  | createJoin cgid cpid psid username now code gameType pick =>
    intro p' hp' helig
    rcases List.mem_append.mp hp' with hp | hp
    · exact h p' hp helig
    · rw [List.mem_singleton.mp hp] at helig
      rw [mkJoinItem_elig] at helig
      cases helig

/-- `_mark_winner` removes the winner's eligibility marker: afterwards no
record with the winner's player id carries a live marker for the game. -/
theorem markWinner_sets_notElig (s : Store) (gid : String) (pid : Int) (gk ts : String)
    (hmc : markerConsistentL s.players gid) :
    notEligL (markWinner s gid pid gk ts).players gid pid := by
  intro p' hp' hpid
  have hany1 := ensureType_key_present gid pid s.players
  have hany2 := applyStoreStep_upd_key_stays gid pid (.ensureTypeKeyW gk) _ hany1
  have hmc2 : markerConsistentL (applyStoreStep (.upd gid pid (.ensureTypeKeyW gk))
      (applyStoreStep (.upd gid pid .ensureTypeW) s.players)) gid :=
    applyStoreStep_markerConsistent _ _ gid (applyStoreStep_markerConsistent _ _ gid hmc)
  have hp3 : p' ∈ applyStoreStep (.upd gid pid (.markWinnerFlagsW gk ts))
      (applyStoreStep (.upd gid pid (.ensureTypeKeyW gk))
        (applyStoreStep (.upd gid pid .ensureTypeW) s.players)) := hp'
  rw [applyStoreStep_upd_of_present gid pid _ _ hany2] at hp3
  obtain ⟨p2, hp2, he⟩ := List.mem_map.mp hp3
  subst he
  by_cases hc : p2.gameId = gid ∧ p2.playerId = pid
  · rw [if_pos hc]
    have hblob : (blobOf p2 gk).isSome :=
      ensureTypeKey_mem_blob_isSome gid pid gk s.players p2 hp2 hc.1 hc.2
    obtain ⟨b, hb⟩ := Option.isSome_iff_exists.mp hblob
    simp [applyPlayerWrite, hb]
  · rw [if_neg hc] at hpid ⊢
    intro helig
    exact hc ⟨hmc2 p2 hp2 helig, hpid⟩

/-- C2: for every game and every identity token that already has a player
record in that game, invoking Join again with that identity (any number of
times) returns ok with the existing player (`created_new = false`, the
`okExisting` result), creates no second player record, and leaves
`playersCount` (indeed the whole store) unchanged. -/
theorem rejoin_is_idempotent (gid psid username : String) (code : Int)
    (now : String) (pick : CatalogChoice) (faults : List PutOutcome) (s : Store)
    (meta : GameRec) (p : Player)
    (hpsid : psid ≠ "") (hgid : gid ≠ "") (husr : username ≠ "")
    (hg : getGame s gid = some meta) (hact : meta.isActive.getD true = true)
    (hfound : findExistingByPsid s gid psid = some p) :
    joinHandler gid psid username code now pick faults s = (.okExisting p, s) ∧
    ∀ n : Nat,
      joinMany gid (List.replicate n ⟨psid, username, code, now, pick, faults⟩) s
        = (List.replicate n (.okExisting p), s) := by
  have hstep : joinHandler gid psid username code now pick faults s
      = (.okExisting p, s) := by
    simp [joinHandler, hpsid, hgid, husr, hg, hact, hfound]
  refine ⟨hstep, ?_⟩
  intro n
  induction n with
  | zero => rfl
  | succ n ih => simp [joinMany, hstep, ih, List.replicate_succ]

/-- Witness for C2 at a concrete store: a second join of `PSID1` returns the
existing player `pW` and leaves the store untouched. -/
theorem rejoin_is_idempotent_witness :
    joinHandler "G1" "PSID1" "@ana" 7777 "t1" pickW [] sW = (.okExisting pW, sW) ∧
    ∀ n : Nat,
      joinMany "G1" (List.replicate n ⟨"PSID1", "@ana", 7777, "t1", pickW, []⟩) sW
        = (List.replicate n (.okExisting pW), sW) :=
  rejoin_is_idempotent "G1" "PSID1" "@ana" 7777 "t1" pickW [] sW gW pW
    (by decide) (by decide) (by decide) (by decide) (by decide) (by decide)

/-- C3: if a Join has reserved a capacity slot and then fails — by
exhausting its 6 conditional-create attempts (`race_condition_retry_exhausted`,
the `raceExhausted` result) or by a non-race write failure (`put_failed`) —
it decrements `playersCount` back before returning, so the counter value is
exactly what it was before the call and no player record was created. -/
theorem join_failure_rolls_back_slot (gid psid username : String) (code : Int)
    (now : String) (pick : CatalogChoice) (faults : List PutOutcome) (s : Store)
    (h : (joinHandler gid psid username code now pick faults s).1 = .raceExhausted ∨
         (joinHandler gid psid username code now pick faults s).1 = .putFailed) :
    pcVal (joinHandler gid psid username code now pick faults s).2 gid = pcVal s gid ∧
    (joinHandler gid psid username code now pick faults s).2.players = s.players := by
  by_cases h1 : psid = "" ∨ gid = ""
  · simp [joinHandler, h1] at h
  by_cases h2 : username = ""
  · simp [joinHandler, h1, h2] at h
  rcases heq : getGame s gid with _ | meta
  · simp [joinHandler, h1, h2, heq] at h
  by_cases h3 : meta.isActive.getD true = false
  · simp [joinHandler, h1, h2, heq, h3] at h
  rcases hf : findExistingByPsid s gid psid with _ | p
  · by_cases h4 : reserveCond (ensureCounters meta) (effectiveMaxPlayers meta) = true
    · have hred : joinHandler gid psid username code now pick faults s
          = allocLoop gid psid username code now (strUpper (meta.gameType.getD "UNKNOWN"))
              pick 6 faults
              (updGame (updGame s gid ensureCounters) gid (applyReserve now)) := by
        simp [joinHandler, h1, h2, heq, h3, hf, h4]
      rw [hred] at h ⊢
      have hstate := allocLoop_fail_state gid psid username code now
        (strUpper (meta.gameType.getD "UNKNOWN")) pick 6 faults
        (updGame (updGame s gid ensureCounters) gid (applyReserve now)) h
      rw [hstate]
      constructor
      · simp only [pcVal,
          getGame_updGame _ gid (applyRollback now) (applyRollback_gameId now),
          getGame_updGame _ gid (applyReserve now) (applyReserve_gameId now),
          getGame_updGame _ gid ensureCounters ensureCounters_gameId, heq]
        simp [applyRollback, applyReserve, ensureCounters]
      · simp [updGame_players]
    · simp [joinHandler, h1, h2, heq, h3, hf, h4] at h
  · simp [joinHandler, h1, h2, heq, h3, hf] at h

/-- Witness for C3: with a fault oracle forcing a non-race put failure, the
join returns `putFailed` and the counter and player list are unchanged. -/
theorem join_failure_rolls_back_slot_witness :
    pcVal (joinHandler "G1" "PSID9" "@leo" 1111 "t0" pickW [.otherFail] sFreshW).2 "G1"
      = pcVal sFreshW "G1" ∧
    (joinHandler "G1" "PSID9" "@leo" 1111 "t0" pickW [.otherFail] sFreshW).2.players
      = sFreshW.players :=
  join_failure_rolls_back_slot "G1" "PSID9" "@leo" 1111 "t0" pickW [.otherFail] sFreshW
    (by decide)

/-! ### Draw-level lemmas -/

theorem saveRaffleWinners_players (s : Store) (gid : String) (winners : List Player)
    (v : Bool) (ts : String) : (saveRaffleWinners s gid winners v ts).players = s.players := rfl

theorem markWinner_preserves_notElig (s : Store) (gid : String) (wpid pid : Int)
    (gk ts : String) (h : notEligL s.players gid pid) :
    notEligL (markWinner s gid wpid gk ts).players gid pid := by
  show notEligL
    (applyStoreStep (.upd gid wpid (.markWinnerFlagsW gk ts))
      (applyStoreStep (.upd gid wpid (.ensureTypeKeyW gk))
        (applyStoreStep (.upd gid wpid .ensureTypeW) s.players))) gid pid
  exact applyStoreStep_notElig _ _ gid pid
    (applyStoreStep_notElig _ _ gid pid (applyStoreStep_notElig _ _ gid pid h))

theorem markWinner_preserves_mc (s : Store) (gid : String) (wpid : Int)
    (gk ts : String) (h : markerConsistentL s.players gid) :
    markerConsistentL (markWinner s gid wpid gk ts).players gid := by
  show markerConsistentL
    (applyStoreStep (.upd gid wpid (.markWinnerFlagsW gk ts))
      (applyStoreStep (.upd gid wpid (.ensureTypeKeyW gk))
        (applyStoreStep (.upd gid wpid .ensureTypeW) s.players))) gid
  exact applyStoreStep_markerConsistent _ _ gid
    (applyStoreStep_markerConsistent _ _ gid (applyStoreStep_markerConsistent _ _ gid h))

theorem foldMark_preserves_notElig (gid gk ts : String) (pid : Int) :
    ∀ (ws : List Player) (s : Store), notEligL s.players gid pid →
      notEligL ((ws.foldl (fun acc wp => markWinner acc gid wp.playerId gk ts) s)).players
        gid pid := by
  intro ws
  induction ws with
  | nil => intro s h; exact h
  | cons w ws ih =>
    intro s h
    exact ih _ (markWinner_preserves_notElig s gid w.playerId pid gk ts h)

theorem foldMark_preserves_mc (gid gk ts : String) :
    ∀ (ws : List Player) (s : Store), markerConsistentL s.players gid →
      markerConsistentL
        ((ws.foldl (fun acc wp => markWinner acc gid wp.playerId gk ts) s)).players gid := by
  intro ws
  induction ws with
  | nil => intro s h; exact h
  | cons w ws ih =>
    intro s h
    exact ih _ (markWinner_preserves_mc s gid w.playerId gk ts h)

/-- Marking every winner clears the eligibility marker of each of their
player ids. -/
theorem foldMark_establishes (gid gk ts : String) (pid : Int) :
    ∀ (ws : List Player) (s : Store), markerConsistentL s.players gid →
      pid ∈ ws.map Player.playerId →
      notEligL ((ws.foldl (fun acc wp => markWinner acc gid wp.playerId gk ts) s)).players
        gid pid := by
  intro ws
  induction ws with
  | nil => intro s _ hmem; cases hmem
  | cons w ws ih =>
    intro s hmc hmem
    rcases List.mem_cons.mp hmem with h | h
    · have hset : notEligL (markWinner s gid w.playerId gk ts).players gid pid := by
        rw [h]
        exact markWinner_sets_notElig s gid w.playerId gk ts hmc
      exact foldMark_preserves_notElig gid gk ts pid ws _ hset
    · exact ih _ (markWinner_preserves_mc s gid w.playerId gk ts hmc) h

/-- Exhaustive shape of a draw: either it did not select (store unchanged,
result not `drawn`), or it selected winners drawn from the candidate set and
marked each one. -/
theorem drawHandler_cases (gid : String) (nW : Option Int) (v : Bool)
    (picks : List Nat) (ts : String) (s : Store) :
    ((drawHandler gid nW v picks ts s).2 = s ∧
      ∀ ws, (drawHandler gid nW v picks ts s).1 ≠ .drawn ws) ∨
    ∃ winners gt,
      (drawHandler gid nW v picks ts s).1 = .drawn winners ∧
      (∀ x ∈ winners, x ∈ raffleCandidates s gid v) ∧
      (drawHandler gid nW v picks ts s).2
        = winners.foldl (fun acc wp => markWinner acc gid wp.playerId gt ts)
            (saveRaffleWinners s gid winners v ts) := by
  by_cases h1 : gid = ""
  · exact Or.inl (by simp [drawHandler, h1])
  rcases nW with _ | w
  · exact Or.inl (by simp [drawHandler, h1])
  by_cases h2 : w ≤ 0
  · exact Or.inl (by simp [drawHandler, h1, h2])
  rcases hg : getGame s gid with _ | game
  · exact Or.inl (by simp [drawHandler, h1, h2, hg])
  by_cases h3 : game.isActive.getD true = false
  · exact Or.inl (by simp [drawHandler, h1, h2, hg, h3])
  by_cases h4 : strUpper (game.gameType.getD "") = ""
  · exact Or.inl (by simp [drawHandler, h1, h2, hg, h3, h4])
  by_cases h5 : raffleCandidates s gid v = []
  · exact Or.inl (by simp [drawHandler, h1, h2, hg, h3, h4, h5])
  · refine Or.inr ⟨sampleWR (raffleCandidates s gid v)
        (picks.take (min w.toNat (raffleCandidates s gid v).length)),
      strUpper (game.gameType.getD ""), ?_, ?_, ?_⟩
    · simp [drawHandler, h1, h2, hg, h3, h4, h5]
    · intro x hx
      exact sampleWR_subset _ _ x hx
    · simp [drawHandler, h1, h2, hg, h3, h4, h5]

/-- Winners reported by a draw come from its candidate set. -/
theorem drawHandler_drawn_sub (gid : String) (nW : Option Int) (v : Bool)
    (picks : List Nat) (ts : String) (s : Store) (ws : List Player)
    (h : (drawHandler gid nW v picks ts s).1 = .drawn ws) :
    ∀ x ∈ ws, x ∈ raffleCandidates s gid v := by
  rcases drawHandler_cases gid nW v picks ts s with ⟨_, hne⟩ | ⟨ws', _, hres, hsub, _⟩
  · exact absurd h (hne ws)
  · rw [h] at hres
    cases hres
    exact hsub

/-- Candidate ids recorded in a draw trace belong to the candidate set. -/
theorem drawRecord_cand_sub (gid : String) (d : DrawSpec) (s : Store) :
    ∀ pid ∈ (drawRecordOf gid d s).candPids,
      pid ∈ (raffleCandidates s gid d.onlyValidated).map Player.playerId := by
  intro pid hpid
  unfold drawRecordOf at hpid
  split at hpid
  · exact hpid
  · exact hpid
  · cases hpid

/-- Winner ids recorded in a draw trace belong to the candidate set. -/
theorem drawRecord_win_sub (gid : String) (d : DrawSpec) (s : Store) :
    ∀ pid ∈ (drawRecordOf gid d s).winPids,
      pid ∈ (raffleCandidates s gid d.onlyValidated).map Player.playerId := by
  intro pid hpid
  unfold drawRecordOf at hpid
  split at hpid
  · rename_i ws hres
    obtain ⟨x, hx, hxe⟩ := List.mem_map.mp hpid
    exact List.mem_map.mpr
      ⟨x, drawHandler_drawn_sub gid d.nWinners d.onlyValidated d.picks d.winTs s ws hres x hx,
       hxe⟩
  · cases hpid
  · cases hpid

/-- A player id with no live marker is not among the candidates. -/
theorem notElig_not_candidate (s : Store) (gid : String) (v : Bool) (pid : Int)
    (h : notEligL s.players gid pid) :
    pid ∉ (raffleCandidates s gid v).map Player.playerId := by
  intro hmem
  obtain ⟨p, hp, hpe⟩ := List.mem_map.mp hmem
  have hp1 := List.mem_filter.mp hp
  have hp2 := List.mem_filter.mp hp1.1
  exact h p hp2.1 hpe (by simpa using hp2.2)

theorem drawStep_preserves_notElig (gid : String) (d : DrawSpec) (s : Store) (pid : Int)
    (h : notEligL s.players gid pid) :
    notEligL ((drawHandler gid d.nWinners d.onlyValidated d.picks d.winTs s).2).players
      gid pid := by
  rcases drawHandler_cases gid d.nWinners d.onlyValidated d.picks d.winTs s with
    ⟨he, _⟩ | ⟨ws, gt, _, _, he⟩
  · rw [he]; exact h
  · rw [he]
    exact foldMark_preserves_notElig gid gt d.winTs pid ws _ h

theorem drawStep_preserves_mc (gid : String) (d : DrawSpec) (s : Store)
    (h : markerConsistentL s.players gid) :
    markerConsistentL ((drawHandler gid d.nWinners d.onlyValidated d.picks d.winTs s).2).players
      gid := by
  rcases drawHandler_cases gid d.nWinners d.onlyValidated d.picks d.winTs s with
    ⟨he, _⟩ | ⟨ws, gt, _, _, he⟩
  · rw [he]; exact h
  · rw [he]
    exact foldMark_preserves_mc gid gt d.winTs ws _ h

/-- After a draw that selected `pid`, no record with that player id holds a
live marker. -/
theorem drawStep_winner_notElig (gid : String) (d : DrawSpec) (s : Store) (pid : Int)
    (hmc : markerConsistentL s.players gid)
    (hwin : pid ∈ (drawRecordOf gid d s).winPids) :
    notEligL ((drawHandler gid d.nWinners d.onlyValidated d.picks d.winTs s).2).players
      gid pid := by
  unfold drawRecordOf at hwin
  rcases drawHandler_cases gid d.nWinners d.onlyValidated d.picks d.winTs s with
    ⟨_, hne⟩ | ⟨ws, gt, hres, _, he⟩
  · split at hwin
    · rename_i ws hres
      exact absurd hres (hne ws)
    · cases hwin
    · cases hwin
  · rw [he]
    rw [hres] at hwin
    exact foldMark_establishes gid gt d.winTs pid ws _ hmc hwin

/-- Once a player id has no live marker, every later draw both excludes it
from the candidate set and never selects it. -/
theorem runDraws_notElig (gid : String) :
    ∀ (ds : List DrawSpec) (s : Store) (pid : Int),
      notEligL s.players gid pid →
      ∀ record ∈ (runDraws gid ds s).1, pid ∉ record.candPids ∧ pid ∉ record.winPids := by
  intro ds
  induction ds with
  | nil => intro s pid _ record hrec; cases hrec
  | cons d rest ih =>
    intro s pid h record hrec
    simp only [runDraws] at hrec
    rcases List.mem_cons.mp hrec with hr | hr
    · subst hr
      constructor
      · intro hc
        exact notElig_not_candidate s gid d.onlyValidated pid h
          (drawRecord_cand_sub gid d s pid hc)
      · intro hc
        exact notElig_not_candidate s gid d.onlyValidated pid h
          (drawRecord_win_sub gid d s pid hc)
    · exact ih _ pid (drawStep_preserves_notElig gid d s pid h) record hr

/-- C4: for every game, once a player has been selected as a winner by a
raffle draw, no later invocation of the draw on that game selects that
player again — winning removes the `eligibleForGameId` marker, the candidate
set of every subsequent draw is read from the sparse index keyed by that
marker, and nothing re-creates the marker — so each player wins at most once
per game.  The hypothesis states the sparse-index invariant: a live marker
for the game sits only on records of that game. -/
theorem raffle_winner_never_reselected (gid : String) :
    ∀ (specs : List DrawSpec) (s : Store), markerConsistentL s.players gid →
    ∀ (i j : Nat), i < j →
    ∀ (ri rj : DrawRecord) (pid : Int),
      (runDraws gid specs s).1.get? i = some ri →
      (runDraws gid specs s).1.get? j = some rj →
      pid ∈ ri.winPids →
      pid ∉ rj.candPids ∧ pid ∉ rj.winPids := by
  intro specs
  induction specs with
  | nil =>
    intro s _ i j _ ri rj pid hi _ _
    simp [runDraws] at hi
  | cons d ds ih =>
    intro s hmc i j hij ri rj pid hi hj hwin
    simp only [runDraws] at hi hj
    cases i with
    | zero =>
      cases j with
      | zero => omega
      | succ j' =>
        rw [List.get?_cons_zero] at hi
        rw [List.get?_cons_succ] at hj
        have hri : drawRecordOf gid d s = ri := by
          injection hi
        have hnot : notEligL
            ((drawHandler gid d.nWinners d.onlyValidated d.picks d.winTs s).2).players
            gid pid :=
          drawStep_winner_notElig gid d s pid hmc (hri ▸ hwin)
        exact runDraws_notElig gid ds _ pid hnot rj (List.get?_mem hj)
    | succ i' =>
      cases j with
      | zero => omega
      | succ j' =>
        rw [List.get?_cons_succ] at hi hj
        exact ih _ (drawStep_preserves_mc gid d s hmc) i' j' (by omega) ri rj pid hi hj hwin

/-- Witness for C4: two successive one-winner draws on a game with two
eligible players; the first winner (player 1) is neither a candidate of nor
selected by the second draw. -/
theorem raffle_winner_never_reselected_witness :
    (1 : Int) ∉ (⟨[2], [2]⟩ : DrawRecord).candPids ∧
    (1 : Int) ∉ (⟨[2], [2]⟩ : DrawRecord).winPids :=
  raffle_winner_never_reselected "G1" [specD, specD] sR
    (by
      intro p hp _
      simp only [sR] at hp
      rcases List.mem_cons.mp hp with h | h
      · rw [h]; rfl
      · rw [List.mem_singleton.mp h]; rfl)
    0 1 (by decide) ⟨[1, 2], [1]⟩ ⟨[2], [2]⟩ 1 (by decide) (by decide) (by decide)

/-- C8: a raffle draw whose filtered candidate set is non-empty selects
exactly `min(numberOfWinners, |candidates|)` winners, pairwise distinct,
from the candidate set; moreover every admissible ordered outcome is
produced by exactly one pick oracle, so a uniformly random oracle induces
the uniform without-replacement distribution over outcomes. -/
theorem raffle_draw_selects_min_uniform (gid : String) (w : Int) (v : Bool)
    (picks : List Nat) (ts : String) (s : Store) (game : GameRec)
    (hgid : gid ≠ "") (hw : 0 < w)
    (hg : getGame s gid = some game)
    (hact : game.isActive.getD true = true)
    (hgt : strUpper (game.gameType.getD "") ≠ "")
    (hnodup : s.players.Nodup)
    (hC : raffleCandidates s gid v ≠ [])
    (hplen : picks.length = min w.toNat (raffleCandidates s gid v).length)
    (hvalid : validPicks (raffleCandidates s gid v) picks = true) :
    ∃ winners,
      (drawHandler gid (some w) v picks ts s).1 = .drawn winners ∧
      winners.length = min w.toNat (raffleCandidates s gid v).length ∧
      winners.Nodup ∧
      (∀ x ∈ winners, x ∈ raffleCandidates s gid v) ∧
      (∀ out : List Player,
        out.length = min w.toNat (raffleCandidates s gid v).length →
        out.Nodup → (∀ x ∈ out, x ∈ raffleCandidates s gid v) →
        ∃! ps : List Nat, validPicks (raffleCandidates s gid v) ps = true ∧
          sampleWR (raffleCandidates s gid v) ps = out) := by
  have hwle : ¬(w ≤ 0) := by omega
  have hact' : game.isActive.getD true = false → False := by rw [hact]; simp
  have htake : picks.take (min w.toNat (raffleCandidates s gid v).length) = picks := by
    rw [← hplen]
    exact List.take_length picks
  have hcnodup : (raffleCandidates s gid v).Nodup :=
    (hnodup.filter _).filter _
  refine ⟨sampleWR (raffleCandidates s gid v) picks, ?_, ?_, ?_, ?_, ?_⟩
  · simp [drawHandler, hgid, hwle, hg, hact, hgt, hC, htake]
  · rw [sampleWR_length picks _ hvalid, hplen]
  · exact sampleWR_nodup picks _ hcnodup
  · intro x hx
    exact sampleWR_subset picks _ x hx
  · intro out _ houtnd houtsub
    exact sampleWR_exists_unique out (raffleCandidates s gid v) hcnodup houtnd houtsub

/-- Witness for C8: one-winner draw over the two-candidate store. -/
theorem raffle_draw_selects_min_uniform_witness :
    ∃ winners,
      (drawHandler "G1" (some 1) false [0] "t1" sR).1 = .drawn winners ∧
      winners.length = min (1 : Int).toNat (raffleCandidates sR "G1" false).length ∧
      winners.Nodup ∧
      (∀ x ∈ winners, x ∈ raffleCandidates sR "G1" false) ∧
      (∀ out : List Player,
        out.length = min (1 : Int).toNat (raffleCandidates sR "G1" false).length →
        out.Nodup → (∀ x ∈ out, x ∈ raffleCandidates sR "G1" false) →
        ∃! ps : List Nat, validPicks (raffleCandidates sR "G1" false) ps = true ∧
          sampleWR (raffleCandidates sR "G1" false) ps = out) :=
  raffle_draw_selects_min_uniform "G1" 1 false [0] "t1" sR gR
    (by decide) (by decide) (by decide) (by decide) (by decide) (by decide)
    (by decide) (by decide) (by decide)

/-! ### Quiz theorems -/

/-- C9: a quiz Start on a game whose `quizOrder` is empty reports the
no-quiz-configured outcome, mutates no player state (the store is returned
unchanged) and sends no message — in particular no quiz intro. -/
theorem quiz_start_no_quiz_config (rawGid : String) (rawPsids : List String)
    (now : String) (s : Store) (meta : GameRec)
    (hgid : strTrim rawGid ≠ "")
    (hpsids : (rawPsids.map strTrim).filter (fun p => p ≠ "") ≠ [])
    (hg : getGame s (strTrim rawGid) = some meta)
    (horder : meta.quizOrder = []) :
    quizStart rawGid rawPsids now s = (.noQuizConfigS, s, []) := by
  have hex : ∃ x ∈ rawPsids, ¬strTrim x = "" := by
    obtain ⟨a, ha⟩ := List.exists_mem_of_ne_nil _ hpsids
    have ha' := List.mem_filter.mp ha
    obtain ⟨x, hx, hxe⟩ := List.mem_map.mp ha'.1
    exact ⟨x, hx, by rw [hxe]; simpa using ha'.2⟩
  simp [quizStart, hgid, hg, horder, hex]

/-- Witness for C9 at a concrete game with no quiz. -/
theorem quiz_start_no_quiz_config_witness :
    quizStart "G9" ["P9"] "t1" sQ9 = (.noQuizConfigS, sQ9, []) :=
  quiz_start_no_quiz_config "G9" ["P9"] "t1" sQ9 gQ9
    (by decide) (by decide) (by decide) (by decide)

/-- Counterexample for C6 as stated: re-configuring the quiz of a game does
NOT leave the quiz-state fields of players that already have quiz state
unchanged — a player whose blob held `quizCompleted = true` and
`quizCurrentQuestion = "q2"` ends with `quizCompleted = false` and
`quizCurrentQuestion = null` after configure. -/
theorem quiz_configure_resets_counterexample :
    (quizConfigure "G1" qsW "t9" sQ6).1 = .okC ∧
    (∀ p ∈ sQ6.players,
      (blobOf p "T1MER").map TypeBlob.quizCompleted = some (some true) ∧
      (blobOf p "T1MER").map TypeBlob.quizCurrentQuestion = some (some (some "q2"))) ∧
    (∀ p ∈ (quizConfigure "G1" qsW "t9" sQ6).2.players,
      (blobOf p "T1MER").map TypeBlob.quizCompleted = some (some false) ∧
      (blobOf p "T1MER").map TypeBlob.quizCurrentQuestion = some (some none)) := by
  decide

theorem preparePlayerQuiz_validated (gk now2 : String) (p : Player) :
    (preparePlayerQuiz gk now2 p).validated = p.validated := by
  simp only [preparePlayerQuiz, applyPlayerWrite, setBlob]
  repeat' split
  all_goals rfl

theorem preparePlayerQuiz_validationCode (gk now2 : String) (p : Player) :
    (preparePlayerQuiz gk now2 p).validationCode = p.validationCode := by
  simp only [preparePlayerQuiz, applyPlayerWrite, setBlob]
  repeat' split
  all_goals rfl

theorem preparePlayerQuiz_elig (gk now2 : String) (p : Player) :
    (preparePlayerQuiz gk now2 p).eligibleForGameId = p.eligibleForGameId := by
  simp only [preparePlayerQuiz, applyPlayerWrite, setBlob]
  repeat' split
  all_goals rfl

/-- C6 amended: configuring (or re-configuring) the quiz of a game applies
the quiz defaults to every existing player of that game: it sets
`quizRequired := true`, `quizCompleted := false` and
`quizCurrentQuestion := null` UNCONDITIONALLY (resetting players that
already had quiz state), preserves only an already-present `quizAnswers` map
(initialising it to empty when missing), and leaves the non-quiz fields of
the blob and of the record untouched. -/
theorem quiz_configure_initializes_players
    (rawGid : String) (questions : List QIn) (now : String) (s : Store)
    (meta : GameRec) (s1 : Store)
    (hgid : strTrim rawGid ≠ "") (hq : questions ≠ [])
    (hg : getGame s (strTrim rawGid) = some meta)
    (hsave : saveQuizMeta s (strTrim rawGid) questions = some s1)
    (hgt : strUpper (meta.gameType.getD "") ≠ "") :
    quizConfigure rawGid questions now s
      = (.okC, prepareQuizForExistingPlayers s1 (strTrim rawGid)
          (strUpper (meta.gameType.getD "")) now) ∧
    (∀ (gk now2 : String) (p : Player) (b : TypeBlob), blobOf p gk = some b →
      blobOf (preparePlayerQuiz gk now2 p) gk = some
        { b with quizRequired := some true, quizCompleted := some false,
                 quizCurrentQuestion := some none,
                 quizAnswers := some (b.quizAnswers.getD []),
                 quizUpdatedAt := some now2 }) ∧
    (∀ (gk now2 : String) (p : Player), blobOf p gk = none →
      blobOf (preparePlayerQuiz gk now2 p) gk = some
        { quizRequired := some true, quizCompleted := some false,
          quizCurrentQuestion := some none, quizAnswers := some [],
          quizUpdatedAt := some now2 }) ∧
    (∀ (gk now2 : String) (p : Player),
      (preparePlayerQuiz gk now2 p).validated = p.validated ∧
      (preparePlayerQuiz gk now2 p).validationCode = p.validationCode ∧
      (preparePlayerQuiz gk now2 p).eligibleForGameId = p.eligibleForGameId) := by
  refine ⟨?_, ?_, ?_, ?_⟩
  · simp [quizConfigure, hgid, hq, hg, hsave, hgt]
  · intro gk now2 p b hb
    rcases hpt : p.type with _ | t
    · rw [blobOf, hpt] at hb
      cases hb
    · rw [blobOf, hpt] at hb
      have hb' : mapGet t gk = some b := hb
      simp [preparePlayerQuiz, applyPlayerWrite, hpt, hb', blobOf, setBlob,
        mapGet_mapSet_self]
  · intro gk now2 p hb
    rcases hpt : p.type with _ | t
    · simp [preparePlayerQuiz, applyPlayerWrite, hpt, blobOf, setBlob,
        mapGet, mapSet, mapGet_mapSet_self]
    · rw [blobOf, hpt] at hb
      have hb' : mapGet t gk = none := hb
      simp [preparePlayerQuiz, applyPlayerWrite, hpt, hb', blobOf, setBlob,
        mapGet_mapSet_self]
  · intro gk now2 p
    exact ⟨preparePlayerQuiz_validated gk now2 p,
      preparePlayerQuiz_validationCode gk now2 p,
      preparePlayerQuiz_elig gk now2 p⟩

/-- Witness for the amended C6 at the concrete store `sQ6`. -/
theorem quiz_configure_initializes_players_witness :
    quizConfigure "G1" qsW "t9" sQ6
      = (.okC, prepareQuizForExistingPlayers s1Q6 (strTrim "G1")
          (strUpper (gQ6.gameType.getD "")) "t9") ∧
    (∀ (gk now2 : String) (p : Player) (b : TypeBlob), blobOf p gk = some b →
      blobOf (preparePlayerQuiz gk now2 p) gk = some
        { b with quizRequired := some true, quizCompleted := some false,
                 quizCurrentQuestion := some none,
                 quizAnswers := some (b.quizAnswers.getD []),
                 quizUpdatedAt := some now2 }) ∧
    (∀ (gk now2 : String) (p : Player), blobOf p gk = none →
      blobOf (preparePlayerQuiz gk now2 p) gk = some
        { quizRequired := some true, quizCompleted := some false,
          quizCurrentQuestion := some none, quizAnswers := some [],
          quizUpdatedAt := some now2 }) ∧
    (∀ (gk now2 : String) (p : Player),
      (preparePlayerQuiz gk now2 p).validated = p.validated ∧
      (preparePlayerQuiz gk now2 p).validationCode = p.validationCode ∧
      (preparePlayerQuiz gk now2 p).eligibleForGameId = p.eligibleForGameId) :=
  quiz_configure_initializes_players "G1" qsW "t9" sQ6 gQ6 s1Q6
    (by decide) (by decide) (by decide) (by decide) (by decide)

/-! ### Quiz-answer support lemmas -/

theorem findExistingByPsid_spec (s : Store) (gid psid : String) (p : Player)
    (h : findExistingByPsid s gid psid = some p) :
    p ∈ s.players ∧ p.instagramPSID = some psid ∧ p.gameId = gid := by
  refine ⟨List.mem_of_find?_eq_some h, ?_, ?_⟩
  · have hp := List.find?_some h
    simp only [decide_eq_true_eq] at hp
    exact hp.1
  · have hp := List.find?_some h
    simp only [decide_eq_true_eq] at hp
    exact hp.2

/-- With unique keys, the keyed lookup of a member returns that member. -/
theorem find?_key_of_mem (l : List Player) (p : Player)
    (hkeys : (l.map (fun q => (q.gameId, q.playerId))).Nodup) (hp : p ∈ l) :
    l.find? (fun q => q.gameId = p.gameId ∧ q.playerId = p.playerId) = some p := by
  induction l with
  | nil => cases hp
  | cons a l ih =>
    rcases List.mem_cons.mp hp with h | h
    · subst h
      simp [List.find?_cons]
    · have hkey : ¬(a.gameId = p.gameId ∧ a.playerId = p.playerId) := by
        intro hc
        have hmem : (p.gameId, p.playerId) ∈ l.map (fun q => (q.gameId, q.playerId)) :=
          List.mem_map_of_mem _ h
        have hnotin : (a.gameId, a.playerId) ∉ l.map (fun q => (q.gameId, q.playerId)) :=
          (List.nodup_cons.mp hkeys).1
        rw [hc.1, hc.2] at hnotin
        exact hnotin hmem
      simp only [List.find?_cons]
      rw [decide_eq_false hkey]
      exact ih (List.nodup_cons.mp hkeys).2 h

/-- Keyed `find?` commutes with the pointwise keyed update. -/
theorem find?_key_map (l : List Player) (gid : String) (pid : Int) (w : PlayerWrite) :
    (l.map (fun p => if p.gameId = gid ∧ p.playerId = pid then applyPlayerWrite w p else p)).find?
        (fun p => p.gameId = gid ∧ p.playerId = pid)
      = (l.find? (fun p => p.gameId = gid ∧ p.playerId = pid)).map
          (fun p => if p.gameId = gid ∧ p.playerId = pid then applyPlayerWrite w p else p) := by
  induction l with
  | nil => rfl
  | cons a l ih =>
    by_cases hc : a.gameId = gid ∧ a.playerId = pid
    · simp only [List.map_cons, if_pos hc, List.find?_cons]
      rw [decide_eq_true hc,
        decide_eq_true (show (applyPlayerWrite w a).gameId = gid ∧
          (applyPlayerWrite w a).playerId = pid from by
            rw [applyPlayerWrite_gameId, applyPlayerWrite_playerId]; exact hc)]
      simp [if_pos hc]
    · simp only [List.map_cons, if_neg hc, List.find?_cons]
      rw [decide_eq_false hc]
      exact ih

theorem getPlayerByKey_updPlayer (s : Store) (gid : String) (pid : Int)
    (w : PlayerWrite) (p : Player) (hfound : getPlayerByKey s gid pid = some p) :
    getPlayerByKey (updPlayer s gid pid w) gid pid = some (applyPlayerWrite w p) := by
  have hcond : p.gameId = gid ∧ p.playerId = pid := by
    have := List.find?_some hfound
    simpa using this
  have hany : s.players.any (fun q => decide (q.gameId = gid ∧ q.playerId = pid)) = true :=
    List.any_eq_true.mpr ⟨p, List.mem_of_find?_eq_some hfound, by simpa using hcond⟩
  show (applyStoreStep (.upd gid pid w) s.players).find? _ = _
  rw [applyStoreStep_upd_of_present gid pid w s.players hany, find?_key_map]
  rw [show s.players.find? (fun q => q.gameId = gid ∧ q.playerId = pid) = some p from hfound]
  simp [if_pos hcond]

theorem updOrFail_some (s : Store) (gid : String) (pid : Int) (w : PlayerWrite)
    (ok : Player → Bool) (p : Player)
    (hfound : getPlayerByKey s gid pid = some p) (hok : ok p = true) :
    updOrFail s gid pid w ok = some (updPlayer s gid pid w) := by
  simp [updOrFail, hfound, hok]

/-- Full specification of a successful `quiz_answer` invocation: the answer
is recorded under `quizAnswers[questionId]`, then the handler either
advances `quizCurrentQuestion` to the entry of `quizOrder` following
`questionId` (emitting that question), or — when no entry follows — marks
the quiz completed and emits the player's validation code. -/
theorem quizAnswer_spec
    (psid rawPayload now : String) (s : Store)
    (gameId questionId answerId : String) (meta : GameRec) (player : Player)
    (b : TypeBlob) (qa : List (String × String)) (code : Int)
    (hpsid : psid ≠ "")
    (hparse : parseQuizPayload (strTrim rawPayload)
        = (some gameId, some questionId, some answerId))
    (hg : getGame s gameId = some meta)
    (hgt1 : strUpper (meta.gameType.getD "") ≠ "")
    (hgt2 : strUpper (meta.gameType.getD "") ≠ "UNKNOWN")
    (horder : meta.quizOrder ≠ [])
    (hfind : findExistingByPsid s gameId psid = some player)
    (hkeys : (s.players.map (fun q => (q.gameId, q.playerId))).Nodup)
    (hblob : blobOf player (strUpper (meta.gameType.getD "")) = some b)
    (hqa : b.quizAnswers = some qa)
    (hcode : player.validationCode = some code) (hcode0 : code ≠ 0) :
    ∃ p' : Player,
      getPlayerByKey (quizAnswer psid rawPayload now s).2.1 gameId player.playerId
        = some p' ∧
      ∃ b' : TypeBlob,
        blobOf p' (strUpper (meta.gameType.getD "")) = some b' ∧
        b'.quizAnswers = some (mapSet qa questionId answerId) ∧
        (∀ nq, nextQuestionId questionId meta.quizOrder = some nq →
          (quizAnswer psid rawPayload now s).1
            = .nextQuestionQ nq gameId player.playerId ∧
          b'.quizCurrentQuestion = some (some nq) ∧
          b'.quizCompleted = some false ∧
          (quizAnswer psid rawPayload now s).2.2
            = (match buildQuizQuestionMessage psid nq meta.quizQuestions with
               | none => []
               | some m => [m])) ∧
        (nextQuestionId questionId meta.quizOrder = none →
          (quizAnswer psid rawPayload now s).1 = .completedQ gameId player.playerId ∧
          b'.quizCurrentQuestion = some none ∧
          b'.quizCompleted = some true ∧
          (quizAnswer psid rawPayload now s).2.2 = sendDm psid (quizCodeMsgText code)) ∧
        (questionId ∈ meta.quizOrder →
          nextQuestionId questionId meta.quizOrder
            = meta.quizOrder.get? (meta.quizOrder.indexOf questionId + 1)) := by
  have hpay : strTrim rawPayload ≠ "" := by
    intro h0
    rw [h0] at hparse
    simp [parseQuizPayload] at hparse
  obtain ⟨hm, hpp, hpg⟩ := findExistingByPsid_spec s gameId psid player hfind
  have hkey : getPlayerByKey s gameId player.playerId = some player := by
    have h := find?_key_of_mem s.players player hkeys hm
    unfold getPlayerByKey
    rw [← hpg]
    exact h
  rcases hpt : player.type with _ | t
  · simp [blobOf, hpt] at hblob
  have hmg : mapGet t (strUpper (meta.gameType.getD "")) = some b := by
    rw [blobOf, hpt] at hblob
    exact hblob
  have hok1 : saveAnswerPathOk player (strUpper (meta.gameType.getD "")) = true := by
    simp [saveAnswerPathOk, hblob, hqa]
  have hu1 := updOrFail_some s gameId player.playerId
    (.saveQuizAnswerW (strUpper (meta.gameType.getD "")) questionId answerId now)
    (fun q => saveAnswerPathOk q (strUpper (meta.gameType.getD ""))) player hkey hok1
  have happ1 : applyPlayerWrite
      (.saveQuizAnswerW (strUpper (meta.gameType.getD "")) questionId answerId now) player
      = setBlob player (strUpper (meta.gameType.getD ""))
          { b with quizAnswers := some (mapSet qa questionId answerId),
                   quizUpdatedAt := some now } := by
    simp [applyPlayerWrite, blobOf, hpt, hmg, hqa]
  have hblob1 : blobOf (setBlob player (strUpper (meta.gameType.getD ""))
      { b with quizAnswers := some (mapSet qa questionId answerId),
               quizUpdatedAt := some now }) (strUpper (meta.gameType.getD ""))
      = some { b with quizAnswers := some (mapSet qa questionId answerId),
                      quizUpdatedAt := some now } := by
    simp [blobOf, setBlob, hpt, mapGet_mapSet_self]
  have hkey1 := getPlayerByKey_updPlayer s gameId player.playerId
    (.saveQuizAnswerW (strUpper (meta.gameType.getD "")) questionId answerId now)
    player hkey
  have hok2 : setQuizStatePathOk (applyPlayerWrite
      (.saveQuizAnswerW (strUpper (meta.gameType.getD "")) questionId answerId now) player)
      (strUpper (meta.gameType.getD "")) = true := by
    rw [happ1]
    simp [setQuizStatePathOk, hblob1]
  have hsucc : questionId ∈ meta.quizOrder →
      nextQuestionId questionId meta.quizOrder
        = meta.quizOrder.get? (meta.quizOrder.indexOf questionId + 1) := by
    intro hmem
    simp [nextQuestionId, horder, hmem]
  rcases hnq : nextQuestionId questionId meta.quizOrder with _ | nq
  · -- completion branch
    have hu2 := updOrFail_some
      (updPlayer s gameId player.playerId
        (.saveQuizAnswerW (strUpper (meta.gameType.getD "")) questionId answerId now))
      gameId player.playerId
      (.setQuizStateW (strUpper (meta.gameType.getD "")) none true now)
      (fun q => setQuizStatePathOk q (strUpper (meta.gameType.getD "")))
      _ hkey1 hok2
    have hkey2 := getPlayerByKey_updPlayer
      (updPlayer s gameId player.playerId
        (.saveQuizAnswerW (strUpper (meta.gameType.getD "")) questionId answerId now))
      gameId player.playerId
      (.setQuizStateW (strUpper (meta.gameType.getD "")) none true now) _ hkey1
    have happ2 : applyPlayerWrite
        (.setQuizStateW (strUpper (meta.gameType.getD "")) none true now)
        (applyPlayerWrite
          (.saveQuizAnswerW (strUpper (meta.gameType.getD "")) questionId answerId now)
          player)
        = setBlob (setBlob player (strUpper (meta.gameType.getD ""))
            { b with quizAnswers := some (mapSet qa questionId answerId),
                     quizUpdatedAt := some now }) (strUpper (meta.gameType.getD ""))
            { b with quizAnswers := some (mapSet qa questionId answerId),
                     quizCurrentQuestion := some none, quizCompleted := some true,
                     quizUpdatedAt := some now } := by
      rw [happ1]
      simp [applyPlayerWrite, hblob1]
    have hred : quizAnswer psid rawPayload now s
        = (.completedQ gameId player.playerId,
           updPlayer (updPlayer s gameId player.playerId
             (.saveQuizAnswerW (strUpper (meta.gameType.getD "")) questionId answerId now))
             gameId player.playerId
             (.setQuizStateW (strUpper (meta.gameType.getD "")) none true now),
           sendDm psid (quizCodeMsgText code)) := by
      simp [quizAnswer, hparse, hg, hfind, hu1, hnq, hu2, hpsid, hpay, hgt1, hgt2,
        horder, hcode, hcode0]
    rw [happ2] at hkey2
    refine ⟨setBlob (setBlob player (strUpper (meta.gameType.getD ""))
        { b with quizAnswers := some (mapSet qa questionId answerId),
                 quizUpdatedAt := some now }) (strUpper (meta.gameType.getD ""))
        { b with quizAnswers := some (mapSet qa questionId answerId),
                 quizCurrentQuestion := some none, quizCompleted := some true,
                 quizUpdatedAt := some now },
      by rw [hred]; exact hkey2,
      { b with quizAnswers := some (mapSet qa questionId answerId),
               quizCurrentQuestion := some none, quizCompleted := some true,
               quizUpdatedAt := some now },
      by simp [blobOf, setBlob, mapGet_mapSet_self],
      rfl, ?_, ?_, ?_⟩
    · intro nq' hnq'
      cases hnq'
    · intro _
      exact ⟨by rw [hred], rfl, rfl, by rw [hred]⟩
    · intro hmem
      rw [← hnq]
      exact hsucc hmem
  · -- next-question branch
    have hu2 := updOrFail_some
      (updPlayer s gameId player.playerId
        (.saveQuizAnswerW (strUpper (meta.gameType.getD "")) questionId answerId now))
      gameId player.playerId
      (.setQuizStateW (strUpper (meta.gameType.getD "")) (some nq) false now)
      (fun q => setQuizStatePathOk q (strUpper (meta.gameType.getD "")))
      _ hkey1 hok2
    have hkey2 := getPlayerByKey_updPlayer
      (updPlayer s gameId player.playerId
        (.saveQuizAnswerW (strUpper (meta.gameType.getD "")) questionId answerId now))
      gameId player.playerId
      (.setQuizStateW (strUpper (meta.gameType.getD "")) (some nq) false now) _ hkey1
    have happ2 : applyPlayerWrite
        (.setQuizStateW (strUpper (meta.gameType.getD "")) (some nq) false now)
        (applyPlayerWrite
          (.saveQuizAnswerW (strUpper (meta.gameType.getD "")) questionId answerId now)
          player)
        = setBlob (setBlob player (strUpper (meta.gameType.getD ""))
            { b with quizAnswers := some (mapSet qa questionId answerId),
                     quizUpdatedAt := some now }) (strUpper (meta.gameType.getD ""))
            { b with quizAnswers := some (mapSet qa questionId answerId),
                     quizCurrentQuestion := some (some nq), quizCompleted := some false,
                     quizUpdatedAt := some now } := by
      rw [happ1]
      simp [applyPlayerWrite, hblob1]
    have hred : quizAnswer psid rawPayload now s
        = (.nextQuestionQ nq gameId player.playerId,
           updPlayer (updPlayer s gameId player.playerId
             (.saveQuizAnswerW (strUpper (meta.gameType.getD "")) questionId answerId now))
             gameId player.playerId
             (.setQuizStateW (strUpper (meta.gameType.getD "")) (some nq) false now),
           match buildQuizQuestionMessage psid nq meta.quizQuestions with
           | none => []
           | some m => [m]) := by
      simp [quizAnswer, hparse, hg, hfind, hu1, hnq, hu2, hpsid, hpay, hgt1, hgt2, horder]
    rw [happ2] at hkey2
    refine ⟨setBlob (setBlob player (strUpper (meta.gameType.getD ""))
        { b with quizAnswers := some (mapSet qa questionId answerId),
                 quizUpdatedAt := some now }) (strUpper (meta.gameType.getD ""))
        { b with quizAnswers := some (mapSet qa questionId answerId),
                 quizCurrentQuestion := some (some nq), quizCompleted := some false,
                 quizUpdatedAt := some now },
      by rw [hred]; exact hkey2,
      { b with quizAnswers := some (mapSet qa questionId answerId),
               quizCurrentQuestion := some (some nq), quizCompleted := some false,
               quizUpdatedAt := some now },
      by simp [blobOf, setBlob, mapGet_mapSet_self],
      rfl, ?_, ?_, ?_⟩
    · intro nq' hnq'
      injection hnq' with he
      subst he
      exact ⟨by rw [hred], rfl, rfl, by rw [hred]⟩
    · intro hnone
      cases hnone
    · intro hmem
      rw [← hnq]
      exact hsucc hmem

/-- Counterexample to C5 as stated: the payload `QR_Q1_A1` has the form
`{gameId}_{questionId}_{answerId}` with `gameId = "QR"`, and a game `QR`
with a configured quiz and a joined player exists — yet the handler treats
any payload beginning with `QR_` as a closed-questionnaire control: it
returns `closedQr`, records no answer (the store is unchanged and the
player's `quizAnswers` stays empty) and advances nothing. -/
theorem quiz_answer_qr_prefix_counterexample :
    ("QR_Q1_A1" = "QR" ++ "_" ++ "Q1" ++ "_" ++ "A1") ∧
    getGame sQR "QR" = some gQR ∧
    gQR.quizOrder = ["Q1", "Q2"] ∧
    findExistingByPsid sQR "QR" "P1" = some pQR ∧
    (quizAnswer "P1" "QR_Q1_A1" "t1" sQR).1 = .closedQr ∧
    (quizAnswer "P1" "QR_Q1_A1" "t1" sQR).2.1 = sQR ∧
    sQR.players = [pQR] ∧
    (blobOf pQR "T1MER").map TypeBlob.quizAnswers = some (some []) := by
  decide

/-- C5 amended: for every quiz Answer event whose payload has the form
`{gameId}_{questionId}_{answerId}` (gameId may contain underscores; the
last two underscore-separated tokens are answerId and questionId) and does
NOT begin with the control prefix `QR_` — such payloads are answered as
closed-questionnaire controls and ignored — the handler records answerId
under the player's `quizAnswers[questionId]`; then, if questionId has a
successor in the game's `quizOrder`, it sets `quizCurrentQuestion` to that
successor with `quizCompleted = false` and emits that question, and if
questionId is the last entry it sets `quizCompleted = true` and emits the
player's validation code.  Answering q1, q2, q3 of order [q1, q2, q3] walks
IN_PROGRESS(q1) to IN_PROGRESS(q2) to IN_PROGRESS(q3) to COMPLETED. -/
theorem quiz_answer_records_and_advances :
    (∀ (psid rawPayload now : String) (s : Store)
       (gameId questionId answerId : String) (meta : GameRec) (player : Player)
       (b : TypeBlob) (qa : List (String × String)) (code : Int),
      psid ≠ "" →
      parseQuizPayload (strTrim rawPayload)
          = (some gameId, some questionId, some answerId) →
      getGame s gameId = some meta →
      strUpper (meta.gameType.getD "") ≠ "" →
      strUpper (meta.gameType.getD "") ≠ "UNKNOWN" →
      meta.quizOrder ≠ [] →
      findExistingByPsid s gameId psid = some player →
      (s.players.map (fun q => (q.gameId, q.playerId))).Nodup →
      blobOf player (strUpper (meta.gameType.getD "")) = some b →
      b.quizAnswers = some qa →
      player.validationCode = some code → code ≠ 0 →
      ∃ p' : Player,
        getPlayerByKey (quizAnswer psid rawPayload now s).2.1 gameId player.playerId
          = some p' ∧
        ∃ b' : TypeBlob,
          blobOf p' (strUpper (meta.gameType.getD "")) = some b' ∧
          b'.quizAnswers = some (mapSet qa questionId answerId) ∧
          (∀ nq, nextQuestionId questionId meta.quizOrder = some nq →
            (quizAnswer psid rawPayload now s).1
              = .nextQuestionQ nq gameId player.playerId ∧
            b'.quizCurrentQuestion = some (some nq) ∧
            b'.quizCompleted = some false ∧
            (quizAnswer psid rawPayload now s).2.2
              = (match buildQuizQuestionMessage psid nq meta.quizQuestions with
                 | none => []
                 | some m => [m])) ∧
          (nextQuestionId questionId meta.quizOrder = none →
            (quizAnswer psid rawPayload now s).1 = .completedQ gameId player.playerId ∧
            b'.quizCurrentQuestion = some none ∧
            b'.quizCompleted = some true ∧
            (quizAnswer psid rawPayload now s).2.2
              = sendDm psid (quizCodeMsgText code)) ∧
          (questionId ∈ meta.quizOrder →
            nextQuestionId questionId meta.quizOrder
              = meta.quizOrder.get? (meta.quizOrder.indexOf questionId + 1))) ∧
    ((quizAnswer "P5" "G5_q1_a1" "t1" sQ5).1 = .nextQuestionQ "q2" "G5" 1 ∧
     currentQuestionOf (quizAnswer "P5" "G5_q1_a1" "t1" sQ5).2.1 "G5" 1 "T1MER"
        = some (some "q2") ∧
     quizCompletedOf (quizAnswer "P5" "G5_q1_a1" "t1" sQ5).2.1 "G5" 1 "T1MER"
        = some false ∧
     (quizAnswer "P5" "G5_q2_a2" "t2" (quizAnswer "P5" "G5_q1_a1" "t1" sQ5).2.1).1
        = .nextQuestionQ "q3" "G5" 1 ∧
     currentQuestionOf
        (quizAnswer "P5" "G5_q2_a2" "t2" (quizAnswer "P5" "G5_q1_a1" "t1" sQ5).2.1).2.1
        "G5" 1 "T1MER" = some (some "q3") ∧
     (quizAnswer "P5" "G5_q3_a3" "t3"
        (quizAnswer "P5" "G5_q2_a2" "t2"
          (quizAnswer "P5" "G5_q1_a1" "t1" sQ5).2.1).2.1).1 = .completedQ "G5" 1 ∧
     currentQuestionOf
        (quizAnswer "P5" "G5_q3_a3" "t3"
          (quizAnswer "P5" "G5_q2_a2" "t2"
            (quizAnswer "P5" "G5_q1_a1" "t1" sQ5).2.1).2.1).2.1 "G5" 1 "T1MER"
        = some none ∧
     quizCompletedOf
        (quizAnswer "P5" "G5_q3_a3" "t3"
          (quizAnswer "P5" "G5_q2_a2" "t2"
            (quizAnswer "P5" "G5_q1_a1" "t1" sQ5).2.1).2.1).2.1 "G5" 1 "T1MER"
        = some true ∧
     (quizAnswer "P5" "G5_q3_a3" "t3"
        (quizAnswer "P5" "G5_q2_a2" "t2"
          (quizAnswer "P5" "G5_q1_a1" "t1" sQ5).2.1).2.1).2.2
        = [⟨"P5", quizCodeMsgText 4321, []⟩]) := by
  constructor
  · intro psid rawPayload now s gameId questionId answerId meta player b qa code
      h1 h2 h3 h4 h5 h6 h7 h8 h9 h10 h11 h12
    exact quizAnswer_spec psid rawPayload now s gameId questionId answerId meta player
      b qa code h1 h2 h3 h4 h5 h6 h7 h8 h9 h10 h11 h12
  · decide

/-- Witness for the amended C5 at the first step of the concrete walk. -/
theorem quiz_answer_records_and_advances_witness :
    ∃ p' : Player,
      getPlayerByKey (quizAnswer "P5" "G5_q1_a1" "t1" sQ5).2.1 "G5" pQ5.playerId
        = some p' ∧
      ∃ b' : TypeBlob,
        blobOf p' (strUpper (gQ5.gameType.getD "")) = some b' ∧
        b'.quizAnswers = some (mapSet [] "q1" "a1") ∧
        (∀ nq, nextQuestionId "q1" gQ5.quizOrder = some nq →
          (quizAnswer "P5" "G5_q1_a1" "t1" sQ5).1 = .nextQuestionQ nq "G5" pQ5.playerId ∧
          b'.quizCurrentQuestion = some (some nq) ∧
          b'.quizCompleted = some false ∧
          (quizAnswer "P5" "G5_q1_a1" "t1" sQ5).2.2
            = (match buildQuizQuestionMessage "P5" nq gQ5.quizQuestions with
               | none => []
               | some m => [m])) ∧
        (nextQuestionId "q1" gQ5.quizOrder = none →
          (quizAnswer "P5" "G5_q1_a1" "t1" sQ5).1 = .completedQ "G5" pQ5.playerId ∧
          b'.quizCurrentQuestion = some none ∧
          b'.quizCompleted = some true ∧
          (quizAnswer "P5" "G5_q1_a1" "t1" sQ5).2.2
            = sendDm "P5" (quizCodeMsgText 4321)) ∧
        ("q1" ∈ gQ5.quizOrder →
          nextQuestionId "q1" gQ5.quizOrder
            = gQ5.quizOrder.get? (gQ5.quizOrder.indexOf "q1" + 1)) :=
  quiz_answer_records_and_advances.1 "P5" "G5_q1_a1" "t1" sQ5 "G5" "q1" "a1" gQ5 pQ5
    genericTypeBlob [] 4321 (by decide) (by decide) (by decide) (by decide) (by decide)
    (by decide) (by decide) (by decide) (by decide) (by decide) (by decide) (by decide)

/-! ### EMPAREJA2 validation (C7) -/

theorem toNat_ofNatV (n : Nat) (h : n.isValidChar) : (Char.ofNat n).toNat = n := by
  rw [Char.ofNat, dif_pos h]
  rfl

theorem digitsVal_append (ds : List Char) (c : Char) :
    digitsVal (ds ++ [c]) = digitsVal ds * 10 + (c.toNat - 48) := by
  simp only [digitsVal, List.foldl_append, List.foldl_cons, List.foldl_nil]

theorem natToDigits_val (fuel n : Nat) (h : n ≤ fuel) :
    digitsVal (natToDigits (fuel + 1) n) = n := by
  induction fuel generalizing n with
  | zero =>
    interval_cases n
    · decide
  | succ fuel ih =>
    by_cases h10 : n < 10
    · rw [natToDigits, if_pos h10]
      have hv : (48 + n).isValidChar := Or.inl (by omega)
      simp only [digitsVal, List.foldl_cons, List.foldl_nil]
      rw [toNat_ofNatV _ hv]
      omega
    · rw [natToDigits, if_neg h10, digitsVal_append]
      have hd : n / 10 ≤ fuel := by omega
      rw [ih (n / 10) hd]
      have hv : (48 + n % 10).isValidChar := Or.inl (by omega)
      rw [toNat_ofNatV _ hv]
      omega

theorem natToStrQ_inj (m n : Nat) (h : natToStrQ m = natToStrQ n) : m = n := by
  have hm := natToDigits_val m m le_rfl
  have hn := natToDigits_val n n le_rfl
  have hd : natToDigits (m + 1) m = natToDigits (n + 1) n := by
    have := congrArg String.data h
    simpa [natToStrQ] using this
  rw [hd, hn] at hm
  omega

theorem natToDigits_head (fuel n : Nat) (h : n ≤ fuel) :
    ∃ c cs, natToDigits (fuel + 1) n = c :: cs ∧ 48 ≤ c.toNat ∧ c.toNat ≤ 57 := by
  induction fuel generalizing n with
  | zero =>
    interval_cases n
    · exact ⟨_, _, rfl, by decide, by decide⟩
  | succ fuel ih =>
    by_cases h10 : n < 10
    · refine ⟨Char.ofNat (48 + n), [], by rw [natToDigits, if_pos h10], ?_, ?_⟩ <;>
      · have hv : (48 + n).isValidChar := Or.inl (by omega)
        rw [toNat_ofNatV _ hv]
        omega
    · obtain ⟨c, cs, he, h1, h2⟩ := ih (n / 10) (by omega)
      refine ⟨c, cs ++ [Char.ofNat (48 + n % 10)], ?_, h1, h2⟩
      rw [natToDigits, if_neg h10, he]
      rfl

theorem intToStrQ_inj (i j : Int) (h : intToStrQ i = intToStrQ j) : i = j := by
  by_cases hi : i < 0 <;> by_cases hj : j < 0
  · simp only [intToStrQ, if_pos hi, if_pos hj] at h
    have hdata := congrArg String.data h
    simp only [List.cons.injEq] at hdata
    have hab : i.natAbs = j.natAbs := by
      have h1 := natToDigits_val i.natAbs i.natAbs le_rfl
      have h2 := natToDigits_val j.natAbs j.natAbs le_rfl
      rw [hdata.2, h2] at h1
      omega
    omega
  · exfalso
    simp only [intToStrQ, if_pos hi, if_neg hj, natToStrQ] at h
    obtain ⟨c, cs, he, h1, _⟩ := natToDigits_head j.natAbs j.natAbs le_rfl
    have hhead := congrArg (fun t => t.data.head?) h
    simp only [he, List.head?_cons] at hhead
    have hc := Option.some.inj hhead
    rw [← hc] at h1
    have h45 : (Char.ofNat 45).toNat = 45 := by decide
    omega
  · exfalso
    simp only [intToStrQ, if_neg hi, if_pos hj, natToStrQ] at h
    obtain ⟨c, cs, he, h1, _⟩ := natToDigits_head i.natAbs i.natAbs le_rfl
    have hhead := congrArg (fun t => t.data.head?) h
    simp only [he, List.head?_cons] at hhead
    have hc := Option.some.inj hhead
    rw [hc] at h1
    have h45 : (Char.ofNat 45).toNat = 45 := by decide
    omega
  · simp only [intToStrQ, if_neg hi, if_neg hj] at h
    have := natToStrQ_inj _ _ h
    omega

/-- The Python rendering `str(characterId)` is injective on `Option Int`,
so the `same_character` gate of the validator tests exactly equality of the
two `characterId` attributes. -/
theorem charStr_inj (a b : Option Int) (h : charStr a = charStr b) : a = b := by
  match a, b with
  | none, none => rfl
  | some i, some j => rw [intToStrQ_inj i j h]
  | none, some j =>
    exfalso
    simp only [charStr] at h
    obtain ⟨c, cs, he, h1, h2⟩ := natToDigits_head j.natAbs j.natAbs le_rfl
    have hhead := congrArg (fun t => t.data.head?) h
    by_cases hj : j < 0
    · simp only [intToStrQ, if_pos hj, List.head?_cons] at hhead
      have := Option.some.inj hhead
      exact absurd this (by decide)
    · simp only [intToStrQ, if_neg hj, natToStrQ, he, List.head?_cons] at hhead
      have hcn := (Option.some.inj hhead).symm
      rw [hcn] at h1 h2
      have : ('N' : Char).toNat = 78 := by decide
      omega
  | some i, none =>
    exfalso
    simp only [charStr] at h
    obtain ⟨c, cs, he, h1, h2⟩ := natToDigits_head i.natAbs i.natAbs le_rfl
    have hhead := congrArg (fun t => t.data.head?) h
    by_cases hi : i < 0
    · simp only [intToStrQ, if_pos hi, List.head?_cons] at hhead
      have := (Option.some.inj hhead).symm
      exact absurd this (by decide)
    · simp only [intToStrQ, if_neg hi, natToStrQ, he, List.head?_cons] at hhead
      have hcn := Option.some.inj hhead
      rw [hcn] at h1 h2
      have : ('N' : Char).toNat = 78 := by decide
      omega

/-- No update expression of the codebase writes `validationCode`. -/
theorem applyPlayerWrite_validationCode (w : PlayerWrite) (p : Player) :
    (applyPlayerWrite w p).validationCode = p.validationCode := by
  cases w <;> simp only [applyPlayerWrite, setBlob] <;> (repeat' split) <;> rfl

/-- An `update_item` addressed at a present key leaves every other key's
lookup unchanged. -/
theorem getPlayerByKey_updPlayer_other (s : Store) (gid : String) (pid pid2 : Int)
    (w : PlayerWrite) (hne : pid2 ≠ pid)
    (hany : s.players.any (fun q => decide (q.gameId = gid ∧ q.playerId = pid)) = true) :
    getPlayerByKey (updPlayer s gid pid w) gid pid2 = getPlayerByKey s gid pid2 := by
  show (applyStoreStep (.upd gid pid w) s.players).find?
      (fun q => decide (q.gameId = gid ∧ q.playerId = pid2))
    = s.players.find? (fun q => decide (q.gameId = gid ∧ q.playerId = pid2))
  rw [applyStoreStep_upd_of_present gid pid w s.players hany, List.find?_map]
  have hpf : ((fun q : Player => decide (q.gameId = gid ∧ q.playerId = pid2)) ∘
      (fun q => if q.gameId = gid ∧ q.playerId = pid then applyPlayerWrite w q else q))
      = (fun q : Player => decide (q.gameId = gid ∧ q.playerId = pid2)) := by
    funext q
    by_cases hq : q.gameId = gid ∧ q.playerId = pid
    · simp only [Function.comp_apply, if_pos hq, applyPlayerWrite_gameId,
        applyPlayerWrite_playerId]
    · simp only [Function.comp_apply, if_neg hq]
  rw [hpf]
  cases hfd : s.players.find? (fun q => decide (q.gameId = gid ∧ q.playerId = pid2)) with
  | none => rfl
  | some q =>
    have hq := List.find?_some hfd
    simp only [decide_eq_true_eq] at hq
    have hnc : ¬(q.gameId = gid ∧ q.playerId = pid) := fun hc => hne (by rw [← hq.2, hc.2])
    show some (if q.gameId = gid ∧ q.playerId = pid then applyPlayerWrite w q else q) = some q
    rw [if_neg hnc]

/-- `query_players_by_code` after an `update_item` addressed at a present
key: the query result is the original result, updated pointwise (every
update expression preserves `gameId` and `validationCode`). -/
theorem queryPlayersByCode_updPlayer (s : Store) (gid2 : String) (c : Int)
    (gid : String) (pid : Int) (w : PlayerWrite)
    (hany : s.players.any (fun q => decide (q.gameId = gid ∧ q.playerId = pid)) = true) :
    queryPlayersByCode (updPlayer s gid pid w) gid2 c
      = (queryPlayersByCode s gid2 c).map
          (fun q => if q.gameId = gid ∧ q.playerId = pid then applyPlayerWrite w q else q) := by
  show (applyStoreStep (.upd gid pid w) s.players).filter _ = _
  rw [applyStoreStep_upd_of_present gid pid w s.players hany, List.filter_map]
  have hpf : ((fun q : Player => decide (q.gameId = gid2 ∧ q.validationCode = some c)) ∘
      (fun q => if q.gameId = gid ∧ q.playerId = pid then applyPlayerWrite w q else q))
      = (fun q : Player => decide (q.gameId = gid2 ∧ q.validationCode = some c)) := by
    funext q
    by_cases hq : q.gameId = gid ∧ q.playerId = pid
    · simp only [Function.comp_apply, if_pos hq, applyPlayerWrite_gameId,
        applyPlayerWrite_validationCode]
    · simp only [Function.comp_apply, if_neg hq]
  rw [hpf]
  rfl

/-- C7: when the two submitted codes resolve to two not-yet-validated
players of the game with the same non-empty `pairId` and different
`characterId`, EMPAREJA2 validation returns `valid` and marks both players
validated; this succeeds exactly once — re-submitting the same two codes
against the resulting store returns `already_validated` and changes
nothing, and submitting the same code twice in one request returns
`same_code` and changes nothing. -/
theorem empareja2_validates_exactly_once
    (s : Store) (gid code1 code2 now : String) (c1 c2 : Int)
    (p1 p2 : Player) (b1 b2 : TypeBlob) (pr : String)
    (hkeys : (s.players.map (fun q => (q.gameId, q.playerId))).Nodup)
    (hc1 : toIntCode code1 = some c1) (hc2 : toIntCode code2 = some c2)
    (hcc : c1 ≠ c2)
    (hq1 : (queryPlayersByCode s gid c1).head? = some p1)
    (hq2 : (queryPlayersByCode s gid c2).head? = some p2)
    (hv1 : p1.validated.getD false = false)
    (hv2 : p2.validated.getD false = false)
    (hb1 : blobOf p1 "EMPAREJA2" = some b1)
    (hb2 : blobOf p2 "EMPAREJA2" = some b2)
    (hpr1 : b1.pairId = some pr) (hpr2 : b2.pairId = some pr) (hpr : pr ≠ "")
    (hch : b1.characterId ≠ b2.characterId) :
    ∃ sv : Store,
      validateE2 s gid [code1, code2] now = (.valid pr p1.playerId p2.playerId, sv)
      ∧ getPlayerByKey sv gid p1.playerId
          = some { p1 with validated := some true, validatedAt := some now }
      ∧ getPlayerByKey sv gid p2.playerId
          = some { p2 with validated := some true, validatedAt := some now }
      ∧ (∀ now2, validateE2 sv gid [code1, code2] now2 = (.alreadyValidated, sv))
      ∧ (∀ now2, validateE2 s gid [code1, code1] now2 = (.sameCode, s)) := by
  have hm1 : p1 ∈ queryPlayersByCode s gid c1 := List.mem_of_mem_head? hq1
  have hm2 : p2 ∈ queryPlayersByCode s gid c2 := List.mem_of_mem_head? hq2
  simp only [queryPlayersByCode] at hm1 hm2
  have hf1 := List.mem_filter.mp hm1
  have hf2 := List.mem_filter.mp hm2
  have hmem1 : p1 ∈ s.players := hf1.1
  have hmem2 : p2 ∈ s.players := hf2.1
  have hprop1 : p1.gameId = gid ∧ p1.validationCode = some c1 := by
    have := hf1.2
    simpa using this
  have hprop2 : p2.gameId = gid ∧ p2.validationCode = some c2 := by
    have := hf2.2
    simpa using this
  have hfind1 : getPlayerByKey s gid p1.playerId = some p1 := by
    have h := find?_key_of_mem s.players p1 hkeys hmem1
    rw [hprop1.1] at h
    exact h
  have hfind2 : getPlayerByKey s gid p2.playerId = some p2 := by
    have h := find?_key_of_mem s.players p2 hkeys hmem2
    rw [hprop2.1] at h
    exact h
  have hne12 : p1.playerId ≠ p2.playerId := by
    intro he
    rw [← he, hfind1] at hfind2
    have hpp : p1 = p2 := Option.some.inj hfind2
    have hsc : some c1 = some c2 := by rw [← hprop1.2, hpp, hprop2.2]
    exact hcc (Option.some.inj hsc)
  have hany1 : s.players.any
      (fun q => decide (q.gameId = gid ∧ q.playerId = p1.playerId)) = true :=
    List.any_eq_true.mpr ⟨p1, hmem1, by simp [hprop1.1]⟩
  have hset1 : setValidated s gid p1.playerId now
      = (true, updPlayer s gid p1.playerId (.setValidatedW now)) := by
    simp only [setValidated, hfind1, hv1, Bool.false_eq_true, if_false]
  have hp1v : applyPlayerWrite (.setValidatedW now) p1
      = { p1 with validated := some true, validatedAt := some now } := by
    simp only [applyPlayerWrite, hv1, Bool.false_eq_true, if_false]
  have hp2v : applyPlayerWrite (.setValidatedW now) p2
      = { p2 with validated := some true, validatedAt := some now } := by
    simp only [applyPlayerWrite, hv2, Bool.false_eq_true, if_false]
  have hs1players : (updPlayer s gid p1.playerId (.setValidatedW now)).players
      = s.players.map (fun q => if q.gameId = gid ∧ q.playerId = p1.playerId
          then applyPlayerWrite (.setValidatedW now) q else q) :=
    applyStoreStep_upd_of_present gid p1.playerId (.setValidatedW now) s.players hany1
  have hany2s1 : (updPlayer s gid p1.playerId (.setValidatedW now)).players.any
      (fun q => decide (q.gameId = gid ∧ q.playerId = p2.playerId)) = true := by
    refine List.any_eq_true.mpr ⟨p2, ?_, by simp [hprop2.1]⟩
    rw [hs1players]
    refine List.mem_map.mpr ⟨p2, hmem2, ?_⟩
    rw [if_neg (fun hc => hne12 hc.2.symm)]
  have hfind2s1 : getPlayerByKey (updPlayer s gid p1.playerId (.setValidatedW now))
      gid p2.playerId = some p2 := by
    rw [getPlayerByKey_updPlayer_other s gid p1.playerId p2.playerId _ hne12.symm hany1]
    exact hfind2
  have hset2 : setValidated (updPlayer s gid p1.playerId (.setValidatedW now))
        gid p2.playerId now
      = (true, updPlayer (updPlayer s gid p1.playerId (.setValidatedW now))
          gid p2.playerId (.setValidatedW now)) := by
    simp only [setValidated, hfind2s1, hv2, Bool.false_eq_true, if_false]
  have hchs : charStr b1.characterId ≠ charStr b2.characterId :=
    fun he => hch (charStr_inj _ _ he)
  have hplayers2 : (incValidatedCount (updPlayer (updPlayer s gid p1.playerId
        (.setValidatedW now)) gid p2.playerId (.setValidatedW now)) gid 2 now).players
      = (updPlayer (updPlayer s gid p1.playerId (.setValidatedW now))
          gid p2.playerId (.setValidatedW now)).players :=
    updGame_players _ gid _
  refine ⟨incValidatedCount (updPlayer (updPlayer s gid p1.playerId (.setValidatedW now))
      gid p2.playerId (.setValidatedW now)) gid 2 now, ?_, ?_, ?_, ?_, ?_⟩
  · simp only [validateE2, hc1, hc2, hcc, hq1, hq2, hv1, hv2, hb1, hb2,
      Option.getD_some, hpr1, hpr2, hpr, hchs, hset1, hset2, Bool.or_self,
      Bool.false_eq_true, if_false, ne_eq, not_false_iff, not_true, or_self,
      if_true, ite_false, ite_true, Prod.mk.injEq]
    norm_num
  · have hstep : getPlayerByKey (incValidatedCount (updPlayer (updPlayer s gid p1.playerId
          (.setValidatedW now)) gid p2.playerId (.setValidatedW now)) gid 2 now)
        gid p1.playerId
        = getPlayerByKey (updPlayer (updPlayer s gid p1.playerId (.setValidatedW now))
            gid p2.playerId (.setValidatedW now)) gid p1.playerId := by
      show (incValidatedCount _ gid 2 now).players.find? _ = _
      rw [hplayers2]
      rfl
    rw [hstep,
      getPlayerByKey_updPlayer_other _ gid p2.playerId p1.playerId _ hne12 hany2s1,
      getPlayerByKey_updPlayer s gid p1.playerId _ p1 hfind1, hp1v]
  · have hstep : getPlayerByKey (incValidatedCount (updPlayer (updPlayer s gid p1.playerId
          (.setValidatedW now)) gid p2.playerId (.setValidatedW now)) gid 2 now)
        gid p2.playerId
        = getPlayerByKey (updPlayer (updPlayer s gid p1.playerId (.setValidatedW now))
            gid p2.playerId (.setValidatedW now)) gid p2.playerId := by
      show (incValidatedCount _ gid 2 now).players.find? _ = _
      rw [hplayers2]
      rfl
    rw [hstep,
      getPlayerByKey_updPlayer _ gid p2.playerId _ p2 hfind2s1, hp2v]
  · intro now2
    have hqv : ∀ c : Int, queryPlayersByCode (incValidatedCount (updPlayer (updPlayer s gid
          p1.playerId (.setValidatedW now)) gid p2.playerId (.setValidatedW now)) gid 2 now)
          gid c
        = queryPlayersByCode (updPlayer (updPlayer s gid p1.playerId (.setValidatedW now))
            gid p2.playerId (.setValidatedW now)) gid c := by
      intro c
      show (incValidatedCount _ gid 2 now).players.filter _ = _
      rw [hplayers2]
      rfl
    have hhv1 : (queryPlayersByCode (incValidatedCount (updPlayer (updPlayer s gid
          p1.playerId (.setValidatedW now)) gid p2.playerId (.setValidatedW now)) gid 2 now)
          gid c1).head?
        = some { p1 with validated := some true, validatedAt := some now } := by
      rw [hqv c1,
        queryPlayersByCode_updPlayer _ gid c1 gid p2.playerId _ hany2s1,
        queryPlayersByCode_updPlayer s gid c1 gid p1.playerId _ hany1,
        List.head?_map, List.head?_map, hq1]
      simp only [Option.map_some', hprop1.1, hne12, hp1v, and_true, true_and,
        and_false, false_and, ite_true, ite_false, if_true, if_false]
    have hhv2 : (queryPlayersByCode (incValidatedCount (updPlayer (updPlayer s gid
          p1.playerId (.setValidatedW now)) gid p2.playerId (.setValidatedW now)) gid 2 now)
          gid c2).head?
        = some { p2 with validated := some true, validatedAt := some now } := by
      rw [hqv c2,
        queryPlayersByCode_updPlayer _ gid c2 gid p2.playerId _ hany2s1,
        queryPlayersByCode_updPlayer s gid c2 gid p1.playerId _ hany1,
        List.head?_map, List.head?_map, hq2]
      have hne21 : p2.playerId ≠ p1.playerId := hne12.symm
      simp only [Option.map_some', hprop2.1, hne21, hp2v, and_true, true_and,
        and_false, false_and, ite_true, ite_false, if_true, if_false]
    simp only [validateE2, hc1, hc2, hcc, hhv1, hhv2, Option.getD_some,
      Bool.true_or, ite_true, if_true, ite_false, if_false, ne_eq,
      not_false_iff]
  · intro now2
    simp [validateE2, hc1]

/-! ### The sparse eligibility index (C10) -/

/-- One write never grows the eligibility index: the updated or upserted
item either keeps its marker or loses it, and a join item is born without
one. -/
theorem eligSet_applyStoreStep (st : StoreStep) (l : List Player) (gid : String) :
    ∀ k ∈ eligSet (applyStoreStep st l) gid, k ∈ eligSet l gid := by
  intro k hk
  simp only [eligSet, List.mem_map] at hk ⊢
  obtain ⟨p', hp', hkey⟩ := hk
  have hf' := List.mem_filter.mp hp'
  have helig' : p'.eligibleForGameId = some gid := by simpa using hf'.2
  cases st with
  | upd ugid upid w =>
    rcases applyStoreStep_upd_mem ugid upid w l p' hf'.1 with ⟨p, hp, he⟩ | he
    · by_cases hc : p.gameId = ugid ∧ p.playerId = upid
      · rw [if_pos hc] at he
        have helig : p.eligibleForGameId = some gid := by
          rcases applyPlayerWrite_elig w p with h | h
          · rw [← h, ← he]
            exact helig'
          · rw [he, h] at helig'
            cases helig'
        refine ⟨p, List.mem_filter.mpr ⟨hp, by simp [helig]⟩, ?_⟩
        rw [← hkey, he, applyPlayerWrite_gameId, applyPlayerWrite_playerId]
      · rw [if_neg hc] at he
        subst he
        exact ⟨p', List.mem_filter.mpr ⟨hp, by simp [helig']⟩, hkey⟩
    · exfalso
      have hblank : (applyPlayerWrite w
          ({ gameId := ugid, playerId := upid } : Player)).eligibleForGameId = none := by
        rcases applyPlayerWrite_elig w { gameId := ugid, playerId := upid } with h | h
        · rw [h]
        · exact h
      rw [he, hblank] at helig'
      cases helig'
  | createJoin cgid cpid psid username now code gameType pick =>
    have hsplit : p' ∈ l ∨
        p' = mkJoinItem cgid cpid psid username now code gameType pick := by
      have hmem := hf'.1
      simp only [applyStoreStep] at hmem
      rcases List.mem_append.mp hmem with h | h
      · exact Or.inl h
      · exact Or.inr (List.mem_singleton.mp h)
    rcases hsplit with h | h
    · exact ⟨p', List.mem_filter.mpr ⟨h, by simp [helig']⟩, hkey⟩
    · exfalso
      rw [h, mkJoinItem_elig] at helig'
      cases helig'

/-- The index can only shrink across an arbitrary run of writes. -/
theorem eligSet_applySteps (steps : List StoreStep) (l : List Player) (gid : String) :
    ∀ k ∈ eligSet (applySteps steps l) gid, k ∈ eligSet l gid := by
  induction steps generalizing l with
  | nil => exact fun k hk => hk
  | cons st steps ih =>
    intro k hk
    exact eligSet_applyStoreStep st l gid k (ih (applyStoreStep st l) k hk)

/-- C10: no operation of the codebase ever writes `eligibleForGameId`:
every update expression leaves the attribute unchanged or removes it (the
raffle `REMOVE`), the item created by Join omits it, and therefore the
membership of the sparse raffle-eligibility index only ever shrinks under
any sequence of gameplayer-table writes. -/
theorem eligibleForGameId_never_written :
    (∀ (w : PlayerWrite) (p : Player),
        (applyPlayerWrite w p).eligibleForGameId = p.eligibleForGameId ∨
        (applyPlayerWrite w p).eligibleForGameId = none)
    ∧ (∀ (gid : String) (pid : Int) (psid username now : String) (code : Int)
        (gameType : String) (pick : CatalogChoice),
        (mkJoinItem gid pid psid username now code gameType pick).eligibleForGameId
          = none)
    ∧ (∀ (steps : List StoreStep) (l : List Player) (gid : String),
        ∀ k ∈ eligSet (applySteps steps l) gid, k ∈ eligSet l gid) :=
  ⟨applyPlayerWrite_elig, mkJoinItem_elig, eligSet_applySteps⟩

/-- C10 witness: a marker surviving a write run on `pR1`, `pR2` was there
before it. -/
theorem eligibleForGameId_never_written_witness :
    ("G1", (1 : Int)) ∈ eligSet (applySteps [.upd "G1" 1 .ensureTypeW] [pR1, pR2]) "G1"
    ∧ ("G1", (1 : Int)) ∈ eligSet [pR1, pR2] "G1" :=
  ⟨by decide,
    eligibleForGameId_never_written.2.2 [.upd "G1" 1 .ensureTypeW] [pR1, pR2] "G1"
      ("G1", 1) (by decide)⟩

/-- C7 witness: in `sE` the codes 1111 / 2222 resolve to the unvalidated
pair `pE1` / `pE2` of `PAIR1` with characters 1 and 2. -/
theorem empareja2_validates_exactly_once_witness :
    ∃ sv : Store,
      validateE2 sE "GE" ["1111", "2222"] "t1"
          = (.valid "PAIR1" pE1.playerId pE2.playerId, sv)
      ∧ getPlayerByKey sv "GE" pE1.playerId
          = some { pE1 with validated := some true, validatedAt := some "t1" }
      ∧ getPlayerByKey sv "GE" pE2.playerId
          = some { pE2 with validated := some true, validatedAt := some "t1" }
      ∧ (∀ now2, validateE2 sv "GE" ["1111", "2222"] now2 = (.alreadyValidated, sv))
      ∧ (∀ now2, validateE2 sE "GE" ["1111", "1111"] now2 = (.sameCode, sE)) :=
  empareja2_validates_exactly_once sE "GE" "1111" "2222" "t1" 1111 2222 pE1 pE2
    blobE1 blobE2 "PAIR1" (by decide) (by decide) (by decide) (by decide)
    (by decide) (by decide) (by decide) (by decide) (by decide) (by decide)
    (by decide) (by decide) (by decide) (by decide)

end Stand
